import Mathlib

/-!
Shallow embedding of the browser-verification scripts of the repository
(12 Python files under `verification/` and `jules-scratch/verification/`,
driving a headless browser with the Playwright sync API).

Each script is a straight-line sequence of automation calls with occasional
`if` branches, `try/except`, `try/finally` and one early `return`.  We embed
each call as an `Act`, each script as a `Prog`, and give the programs a
deterministic small-step-style interpreter `run` parameterised by an
environment that decides, for each fallible automation call, whether it
raises (element not found / timeout / assertion mismatch), and which way
each data-dependent `if` goes.  The interpreter records the attempted calls
(with an idealised clock advanced only by the scripts' explicit waits) and
the files written by successful screenshot calls.
-/

namespace ErgogenVerif

/-- One browser-automation call (or plain Python statement) of a script.
String arguments keep the source's selector / label / path literals
(quotation marks and interpolation braces of the source are elided).
`screenshot path fullPage`: `fullPage` records whether the source call
passes `full_page=True`; none of the scripts does, and the automation
library's default is a viewport (not full-page) capture. -/
inductive Act where
  | launch
  | newContext
  | newContextVp (w h : Nat)
  | newPage
  | onEvent (ev : String)
  | goto (url : String)
  | waitForLoadState (st : String)
  | waitForTimeout (ms : Nat)
  | sleepMs (ms : Nat)
  | click (target : String)
  | fill (target : String) (value : String)
  | check (target : String)
  | selectOption (target : String) (value : String)
  | waitForSelector (target : String) (timeoutMs : Nat)
  | expectVisible (target : String) (timeoutMs : Nat)
  | expectValue (target : String) (value : String)
  | readValue (target : String)
  | readText (target : String)
  | mouseMove (x y : Nat)
  | evalJs (descr : String)
  | addInitScript (key : String)
  | screenshot (path : String) (fullPage : Bool)
  | printMsg (s : String)
  | printParts (parts : List String)
  | printExc (pre : String)
  | closeBrowser
  deriving DecidableEq, Repr

/-- Result of running a script (or a sub-block of one): normal completion,
an executed Python `return`, or an uncaught exception. -/
inductive Outcome where
  | ok
  | retd
  | raised
  deriving DecidableEq, Repr

/-- The external world: for the n-th attempted fallible automation call,
whether it raises; for the n-th evaluated `if` condition, which way it goes. -/
structure Env where
  fails : Nat → Bool
  branches : Nat → Bool

/-- Interpreter state: counters for fallible calls and branch conditions,
an idealised clock in milliseconds (advanced only by the scripts' explicit
waits), the list of attempted calls with the clock at the attempt, and the
list of file paths written by successful screenshot calls, in order. -/
structure St where
  nf : Nat
  nb : Nat
  clock : Nat
  attempted : List (Act × Nat)
  writes : List String
  deriving Repr

/-- Which automation calls can raise (element not found, timeout,
navigation error, assertion mismatch).  Plain prints, fixed waits, mouse
moves, browser/page creation, listener registration, storage seeding and
`browser.close()` are treated as non-raising. -/
def fallible : Act → Bool
  | .goto _ => true
  | .waitForLoadState _ => true
  | .click _ => true
  | .fill _ _ => true
  | .check _ => true
  | .selectOption _ _ => true
  | .waitForSelector _ _ => true
  | .expectVisible _ _ => true
  | .expectValue _ _ => true
  | .readValue _ => true
  | .readText _ => true
  | .evalJs _ => true
  | .screenshot _ _ => true
  | _ => false

/-- Idealised duration of a call in milliseconds: only the scripts'
explicit waits (`page.wait_for_timeout`, `time.sleep`) advance the clock. -/
def dur : Act → Nat
  | .waitForTimeout ms => ms
  | .sleepMs ms => ms
  | _ => 0

/-- The file paths a call writes when it succeeds: screenshots only. -/
def shotOf : Act → List String
  | .screenshot p _ => [p]
  | _ => []

/-- Program syntax: straight-line calls, data-dependent branching,
`try/except Exception` (catch-all), `try/finally`, and Python `return`.
Every constructor carries its continuation. -/
inductive Prog where
  | done : Prog
  | ret : Prog
  | act : Act → Prog → Prog
  | branch : String → Prog → Prog → Prog → Prog
  | tryCatch : Prog → Prog → Prog → Prog
  | tryFinally : Prog → Prog → Prog → Prog
  deriving DecidableEq, Repr

/-- Turn a list of calls into a straight-line program with continuation. -/
def seq : List Act → Prog → Prog
  | [], k => k
  | a :: l, k => .act a (seq l k)

/-- The interpreter.  A fallible call that the environment makes fail is
recorded as attempted and raises; a successful call records its effects and
continues.  A raise propagates out of `branch`, is caught by `tryCatch`,
and passes through `tryFinally` after the finaliser has run.  `ret`
(Python `return`) skips everything up to the end of the script except
enclosing finalisers. -/
def run : Prog → Env → St → St × Outcome
  | .done, _, s => (s, .ok)
  | .ret, _, s => (s, .retd)
  | .act a rest, env, s =>
      if fallible a && env.fails s.nf then
        ({ s with attempted := s.attempted ++ [(a, s.clock)], nf := s.nf + 1 }, .raised)
      else
        run rest env
          { s with
            attempted := s.attempted ++ [(a, s.clock)],
            nf := s.nf + (if fallible a then 1 else 0),
            clock := s.clock + dur a,
            writes := s.writes ++ shotOf a }
  | .branch _ t e rest, env, s =>
      let s1 : St := { s with nb := s.nb + 1 }
      let r := if env.branches s.nb then run t env s1 else run e env s1
      match r with
      | (s2, .ok) => run rest env s2
      | (s2, o) => (s2, o)
  | .tryCatch b h rest, env, s =>
      match run b env s with
      | (s1, .raised) =>
          match run h env s1 with
          | (s2, .ok) => run rest env s2
          | (s2, o2) => (s2, o2)
      | (s1, .ok) => run rest env s1
      | (s1, o) => (s1, o)
  | .tryFinally b f rest, env, s =>
      match run b env s with
      | (s1, o) =>
          match run f env s1 with
          | (s2, .ok) =>
              match o with
              | .ok => run rest env s2
              | _ => (s2, o)
          | (s2, o2) => (s2, o2)

/-- The empty starting state of a script run. -/
def st0 : St := { nf := 0, nb := 0, clock := 0, attempted := [], writes := [] }

/-- Run a whole script from the empty starting state. -/
def runS (p : Prog) (env : Env) : St × Outcome := run p env st0

/-- The automation calls a run attempted, without their timestamps. -/
def calls (r : St × Outcome) : List Act := r.1.attempted.map Prod.fst

/-!
### Script transcriptions

One `Prog` per script file.  Selector arguments name the Playwright locator
method and its literal argument (the source's quotation marks are elided);
f-string prints are `printParts` with the static parts of the template, the
interpolated expressions elided.
-/

/-- src/jules-scratch/verification/verify_confetti.py, function `run`. -/
def verify_confetti : Prog := seq [
  .launch,
  .newContext,
  .newPage,
  .goto "http://localhost:3000",
  .click "get_by_role button, name=Generate",
  .waitForTimeout 1000,
  .click "get_by_role button, name=Generate",
  .waitForTimeout 1000,
  .screenshot "jules-scratch/verification/verification.png" false,
  .closeBrowser] .done

/-- The label locator used throughout verify_debounce_setting.py. -/
def debounceDelayInput : String := "get_by_label Auto-generate delay (ms)"

/-- src/jules-scratch/verification/verify_debounce_setting.py, function
`verify_debounce_setting` (the interaction body run on the page). -/
def verify_debounce_setting_body : Prog := seq [
  .goto "http://localhost:3000",
  .waitForLoadState "load"]
  (.branch "/new in page.url"
    (seq [.click "get_by_role button, name=Start from scratch"] .done)
    .done
    (seq [
      .click "get_by_text settings",
      .expectVisible debounceDelayInput 0,
      .expectValue debounceDelayInput "400",
      .fill debounceDelayInput "1000",
      .expectValue debounceDelayInput "1000",
      .screenshot "jules-scratch/verification/verification.png" false] .done))

/-- src/jules-scratch/verification/verify_debounce_setting.py, function
`main`: launch, then the body inside try/finally with browser.close(). -/
def verify_debounce_setting_main : Prog := seq [.launch, .newPage]
  (.tryFinally verify_debounce_setting_body (seq [.closeBrowser] .done) .done)

/-- src/jules-scratch/verification/verify_jscad_preview.py, the try-block
of function `run` (lines 9-44). -/
def verify_jscad_preview_body : Prog := seq [
  .goto "http://localhost:3000",
  .sleepMs 5000,
  .expectVisible "locator h2:has-text(Ergogen)" 0,
  .click "locator button:has-text(settings)",
  .check "get_by_label JSCAD Preview (experimental)",
  .click "locator button:has-text(keyboard_alt)",
  .click "locator button:has-text(Generate)",
  .sleepMs 5000,
  .expectVisible "locator text=Downloads" 15000,
  .expectVisible "locator a:has-text(case.jscad)" 0,
  .click "locator a:has-text(case.jscad)",
  .expectVisible "locator canvas" 15000,
  .screenshot "jules-scratch/verification/jscad_preview.png" false,
  .printMsg "Screenshot saved to jules-scratch/verification/jscad_preview.png"] .done

/-- src/jules-scratch/verification/verify_jscad_preview.py, the except-block
of function `run` (lines 46-49). -/
def verify_jscad_preview_handler : Prog := seq [
  .printExc "An error occurred: ",
  .screenshot "jules-scratch/verification/error.png" false,
  .printMsg "Error screenshot saved to jules-scratch/verification/error.png"] .done

/-- src/jules-scratch/verification/verify_jscad_preview.py, function `run`:
launch, then try/except/finally with browser.close() in the finally. -/
def verify_jscad_preview : Prog := seq [.launch, .newPage]
  (.tryFinally
    (.tryCatch verify_jscad_preview_body verify_jscad_preview_handler .done)
    (seq [.closeBrowser] .done) .done)

/-- src/jules-scratch/verification/verify_settings.py, function `main`
calling `verify_settings_change` then browser.close(), with no try. -/
def verify_settings : Prog := seq [
  .launch,
  .newPage,
  .goto "http://localhost:3000",
  .click "get_by_test_id settings-button",
  .screenshot "jules-scratch/verification/settings_panel.png" false,
  .closeBrowser] .done

/-- src/jules-scratch/verification/verify_stl_conversion.py, function `run`. -/
def verify_stl_conversion : Prog := seq [
  .launch,
  .newPage,
  .goto "http://localhost:3000",
  .waitForSelector "[data-testid=download-row-stl-a_case]" 0,
  .screenshot "jules-scratch/verification/initial_state.png" false,
  .click "locator button:has-text(Generate)",
  .waitForSelector "[data-testid=download-row-stl-a_case]:not([disabled])" 0,
  .screenshot "jules-scratch/verification/final_state.png" false,
  .closeBrowser] .done

/-- src/verification/verify_layout.py, function `verify_layout`. -/
def verify_layout : Prog := seq [
  .launch,
  .newContextVp 1280 720,
  .newPage,
  .onEvent "console",
  .onEvent "pageerror",
  .printMsg "Navigating to /interactive-layout...",
  .goto "http://localhost:3000/interactive-layout",
  .sleepMs 2000]
  (.branch "overlay count > 0"
    (seq [.printMsg "Webpack overlay detected."]
      (.tryCatch
        (.branch "overlay content_frame is truthy"
          (seq [.readText "frame locator body inner_text",
                .printParts ["Overlay Error Text: ", ""]] .done)
          .done .done)
        (seq [.printExc "Could not read overlay text: "] .done)
        (seq [.printMsg "Removing overlay...",
              .evalJs "getElementById webpack-dev-server-client-overlay remove"] .done)))
    .done
  (.tryCatch
    (seq [.waitForSelector "text=Ergogen" 5000,
          .printMsg "Page loaded (Header found)."] .done)
    (seq [.printMsg "Page load timed out or header not found."] .done)
  (seq [.printMsg "Checking for panels..."]
  (.branch "Select Tool button is_visible"
    (seq [.printMsg "Tools panel visible (Select Tool button found)."] .done)
    (seq [.printMsg "Tools panel NOT visible."] .done)
  (.branch "GRID heading is_visible"
    (seq [.printMsg "Properties panel visible (GRID heading found)."] .done)
    (seq [.printMsg "Properties panel NOT visible (GRID heading NOT found)."] .done)
  (.branch "canvas count > 0"
    (seq [.printMsg "Canvas element found."] .done)
    (seq [.printMsg "Canvas element NOT found."] .done)
  (seq [.printMsg "Interacting with properties..."]
  (.branch "grid_label is_visible"
    (seq [.printMsg "Grid label found."]
      (.branch "grid_input is_checked"
        (seq [.printMsg "Grid is enabled by default."] .done)
        (seq [.printMsg "Grid is disabled by default."] .done)
        (seq [.click "get_by_text Show Grid",
              .sleepMs 500,
              .printParts ["Grid toggled. Now checked: ", ""],
              .click "get_by_text Show Grid"] .done)))
    (seq [.printMsg "Grid label NOT found."] .done)
  (.branch "size_input is_visible and unit_select is_visible"
    (seq [.readValue "get_by_label Grid Size",
          .readValue "get_by_label Grid Unit",
          .printParts ["Initial State: ", " ", ""],
          .printMsg "Changing unit to mm...",
          .selectOption "get_by_label Grid Unit" "mm",
          .sleepMs 200,
          .readValue "get_by_label Grid Size",
          .printParts ["Value in mm: ", " (Expected ~19.05)"],
          .printMsg "Setting size to 10 mm...",
          .fill "get_by_label Grid Size" "10",
          .printMsg "Changing unit back to U...",
          .selectOption "get_by_label Grid Unit" "U",
          .sleepMs 200,
          .readValue "get_by_label Grid Size",
          .printParts ["Value in U: ", " (Expected ~0.525)"]] .done)
    (seq [.printMsg "Grid Size input or Unit selector NOT found."] .done)
  (seq [.printMsg "Capturing screenshot...",
        .screenshot "verification/layout_editor.png" false,
        .printMsg "Screenshot saved to verification/layout_editor.png",
        .closeBrowser] .done))))))))))

/-- src/verification/verify_resizable.py, function `verify_resizable`. -/
def verify_resizable : Prog := seq [
  .launch,
  .newContextVp 1280 720,
  .newPage,
  .printMsg "Navigating to /interactive-layout...",
  .goto "http://localhost:3000/interactive-layout",
  .waitForSelector "text=Ergogen" 0]
  (.branch "tools-panel is_visible"
    (seq [.printMsg "Tools panel is visible."]
      (.branch "resize handle count == 0"
        (seq [.printMsg "SUCCESS: Resize handle NOT found for Tools panel."] .done)
        (seq [.printMsg "FAILURE: Resize handle FOUND for Tools panel."] .done)
        .done))
    (seq [.printMsg "Tools panel NOT visible."] .done)
    (seq [.closeBrowser] .done))

/-- src/verification/verify_snap.py, function `verify_snap`. -/
def verify_snap : Prog := seq [
  .launch,
  .newContextVp 1280 720,
  .newPage,
  .printMsg "Navigating to /interactive-layout...",
  .goto "http://localhost:3000/interactive-layout"]
  (.tryCatch
    (seq [.waitForSelector "text=Ergogen" 5000, .printMsg "Page loaded."] .done)
    (seq [.printMsg "Page load timeout."] .done)
    (seq [.printMsg "Enabling Snap to Grid...",
          .click "get_by_text Snap to Grid",
          .sleepMs 500,
          .printMsg "Checking for Snap status...",
          .mouseMove 640 360,
          .sleepMs 200]
      (.branch "snap_status count > 0"
        (seq [.readText "locator text=Snap:",
              .printParts ["Snap Status Found: ", ""],
              .mouseMove 645 360,
              .sleepMs 200,
              .readText "locator text=Snap:",
              .printParts ["Snap Status Moved: ", ""]] .done)
        (seq [.printMsg "Snap Status NOT found."] .done)
        (seq [.printMsg "Capturing screenshot...",
              .screenshot "verification/snap_grid.png" false,
              .printMsg "Screenshot saved to verification/snap_grid.png",
              .closeBrowser] .done))))

/-- src/verification/verify_status_bar.py, function `verify_status_bar`. -/
def verify_status_bar : Prog := seq [
  .launch,
  .newContextVp 1280 720,
  .newPage,
  .onEvent "console",
  .onEvent "pageerror",
  .printMsg "Navigating to /interactive-layout...",
  .goto "http://localhost:3000/interactive-layout"]
  (.tryCatch
    (seq [.waitForSelector "text=Ergogen" 5000, .printMsg "Page loaded."] .done)
    (seq [.printMsg "Page load timeout."] .done)
  (seq [.printMsg "Checking status bar elements..."]
  (.branch "webpack overlay count > 0"
    (seq [.printMsg "Webpack Overlay Detected!"]
      (.branch "overlay content_frame is truthy"
        (seq [.readText "frame locator body inner_text",
              .printParts ["Error: ", ""]] .done)
        .done .done))
    .done
  (.branch "Zoom: 100% is_visible"
    (seq [.printMsg "Zoom level found."] .done)
    (seq [.printMsg "Zoom level NOT found."] .done)
  (.branch "Keys: 15 is_visible"
    (seq [.printMsg "Keys count found."] .done)
    (seq [.printMsg "Keys count NOT found."] .done)
  (seq [.printMsg "Moving mouse to center...",
        .mouseMove 640 360,
        .sleepMs 500]
  (.branch "Mouse: count > 0"
    (seq [.readText "locator text=Mouse:",
          .printParts ["Status Bar Text: ", ""]] .done)
    (seq [.printMsg "Mouse label not found"] .done)
  (seq [.printMsg "Capturing screenshot...",
        .screenshot "verification/status_bar.png" false,
        .printMsg "Screenshot saved to verification/status_bar.png",
        .closeBrowser] .done))))))))

/-- src/verification/verify_unit_input.py, function `verify_unit_input`:
note the early `return` when the Grid Size input is not visible. -/
def verify_unit_input : Prog := seq [
  .launch,
  .newContextVp 1280 720,
  .newPage,
  .printMsg "Navigating to /interactive-layout...",
  .goto "http://localhost:3000/interactive-layout"]
  (.tryCatch
    (seq [.waitForSelector "text=Ergogen" 5000, .printMsg "Page loaded."] .done)
    (seq [.printMsg "Page load timeout."] .done)
  (.branch "Grid Size input is_visible"
    (seq [.readValue "get_by_label Grid Size",
          .printParts ["Initial Grid Size: ", ""]] .done)
    (seq [.printMsg "Grid Size input NOT found"] .ret)
  (.branch "Change unit button is_visible"
    (seq [.readText "get_by_label Change unit",
          .printParts ["Initial Unit: ", ""],
          .click "get_by_label Change unit",
          .sleepMs 200,
          .readText "get_by_label Change unit",
          .printParts ["Unit after click: ", ""],
          .click "get_by_label Change unit",
          .click "get_by_label Change unit",
          .sleepMs 200,
          .readText "get_by_label Change unit",
          .printParts ["Unit reset to: ", ""]] .done)
    (seq [.printMsg "Unit button NOT found"] .done)
  (.branch "Increase value button is_visible"
    (seq [.click "get_by_label Increase value",
          .sleepMs 200,
          .readValue "get_by_label Grid Size",
          .printParts ["Value after increase: ", " (Expected 1.125)"],
          .click "get_by_label Decrease value",
          .sleepMs 200,
          .readValue "get_by_label Grid Size",
          .printParts ["Value after decrease: ", " (Expected 1)"]] .done)
    (seq [.printMsg "Arrow buttons NOT found"] .done)
  (seq [.printMsg "Capturing screenshot...",
        .screenshot "verification/unit_input.png" false,
        .printMsg "Screenshot saved to verification/unit_input.png",
        .closeBrowser] .done)))))

/-- src/verification/verify_viz_mode.py, function `verify_viz_mode`: the
context is created with a viewport and an init script seeding the
browser-local storage key ergogen:config before any page loads. -/
def verify_viz_mode : Prog := seq [
  .launch,
  .newContextVp 1280 720,
  .addInitScript "ergogen:config",
  .newPage,
  .printMsg "Navigating to /interactive-layout...",
  .goto "http://localhost:3000/interactive-layout"]
  (.tryCatch
    (seq [.waitForSelector "text=Visualization" 10000,
          .printMsg "Visualization selector found."] .done)
    (seq [.printMsg "Selector not found."] .done)
    (seq [.printMsg "Selecting Visual Mode...",
          .selectOption "get_by_label Visualization Mode" "visual",
          .sleepMs 1000,
          .screenshot "verification/viz_visual.png" false,
          .printMsg "Screenshot saved: verification/viz_visual.png",
          .printMsg "Selecting Wireframe Mode...",
          .selectOption "get_by_label Visualization Mode" "wireframe",
          .sleepMs 1000,
          .screenshot "verification/viz_wireframe.png" false,
          .printMsg "Screenshot saved: verification/viz_wireframe.png",
          .closeBrowser] .done))

/-- src/verification/verify_y_flip.py, function `verify_y_flip`. -/
def verify_y_flip : Prog := seq [
  .launch,
  .newContextVp 1280 720,
  .newPage,
  .printMsg "Navigating to /interactive-layout...",
  .goto "http://localhost:3000/interactive-layout"]
  (.tryCatch
    (seq [.waitForSelector "text=Ergogen" 5000, .printMsg "Page loaded."] .done)
    (seq [.printMsg "Page load timeout."] .done)
    (seq [.mouseMove 640 360,
          .sleepMs 500,
          .readText "locator text=Mouse:",
          .printParts ["Center: ", ", ", ""],
          .printMsg "Moving UP...",
          .mouseMove 640 310,
          .sleepMs 200,
          .readText "locator text=Mouse:",
          .printParts ["Up: ", ", ", ""]]
      (.branch "y_up > y0"
        (seq [.printMsg "SUCCESS: Y increased when moving UP."] .done)
        (seq [.printMsg "FAILURE: Y did not increase when moving UP."] .done)
      (seq [.printMsg "Moving DOWN...",
            .mouseMove 640 410,
            .sleepMs 200,
            .readText "locator text=Mouse:",
            .printParts ["Down: ", ", ", ""]]
        (.branch "y_down < y0"
          (seq [.printMsg "SUCCESS: Y decreased when moving DOWN."] .done)
          (seq [.printMsg "FAILURE: Y did not decrease when moving DOWN."] .done)
          (seq [.closeBrowser] .done))))))

/-- All twelve scripts of the repository. -/
def allScripts : List Prog := [
  verify_confetti, verify_debounce_setting_main, verify_jscad_preview,
  verify_settings, verify_stl_conversion, verify_layout, verify_resizable,
  verify_snap, verify_status_bar, verify_unit_input, verify_viz_mode,
  verify_y_flip]

/-- Environment in which every automation call succeeds and every branch
condition is true. -/
def envAllTrue : Env := { fails := fun _ => false, branches := fun _ => true }

/-- Environment in which every automation call succeeds and every branch
condition is false. -/
def envAllFalse : Env := { fails := fun _ => false, branches := fun _ => false }

/-- Environment in which every automation call raises. -/
def envAllFail : Env := { fails := fun _ => true, branches := fun _ => true }

/-!
### Syntactic views and path predicates

Purely syntactic collections over a program: its calls, its screenshot
calls, its navigation URLs; and Boolean predicates used to reason about
whole families of execution paths at once.
-/

/-- All calls occurring anywhere in a program (both branch arms, try
bodies, handlers and finalisers included), in source order. -/
def actsOf : Prog → List Act
  | .done => []
  | .ret => []
  | .act a rest => a :: actsOf rest
  | .branch _ t e rest => actsOf t ++ actsOf e ++ actsOf rest
  | .tryCatch b h rest => actsOf b ++ actsOf h ++ actsOf rest
  | .tryFinally b f rest => actsOf b ++ actsOf f ++ actsOf rest

/-- The file paths of all screenshot calls occurring in a program. -/
def shotPaths : Prog → List String
  | .done => []
  | .ret => []
  | .act a rest => shotOf a ++ shotPaths rest
  | .branch _ t e rest => shotPaths t ++ shotPaths e ++ shotPaths rest
  | .tryCatch b h rest => shotPaths b ++ shotPaths h ++ shotPaths rest
  | .tryFinally b f rest => shotPaths b ++ shotPaths f ++ shotPaths rest

/-- The (path, fullPage) argument pairs of all screenshot calls in a
program. -/
def shotCalls : Prog → List (String × Bool)
  | .done => []
  | .ret => []
  | .act a rest =>
      (match a with | .screenshot p fp => [(p, fp)] | _ => []) ++ shotCalls rest
  | .branch _ t e rest => shotCalls t ++ shotCalls e ++ shotCalls rest
  | .tryCatch b h rest => shotCalls b ++ shotCalls h ++ shotCalls rest
  | .tryFinally b f rest => shotCalls b ++ shotCalls f ++ shotCalls rest

/-- The URLs of all page.goto calls in a program. -/
def gotoUrls : Prog → List String
  | .done => []
  | .ret => []
  | .act a rest =>
      (match a with | .goto u => [u] | _ => []) ++ gotoUrls rest
  | .branch _ t e rest => gotoUrls t ++ gotoUrls e ++ gotoUrls rest
  | .tryCatch b h rest => gotoUrls b ++ gotoUrls h ++ gotoUrls rest
  | .tryFinally b f rest => gotoUrls b ++ gotoUrls f ++ gotoUrls rest

/-- A program that can raise on no execution path: all its calls are
infallible, except that a try body whose handler cannot raise is also
safe. -/
def cannotRaise : Prog → Bool
  | .done => true
  | .ret => true
  | .act a rest => !fallible a && cannotRaise rest
  | .branch _ t e rest => cannotRaise t && cannotRaise e && cannotRaise rest
  | .tryCatch b h rest => (cannotRaise b || cannotRaise h) && cannotRaise rest
  | .tryFinally b f rest => cannotRaise b && cannotRaise f && cannotRaise rest

/-- A program with no `return` statement anywhere. -/
def retFree : Prog → Bool
  | .done => true
  | .ret => false
  | .act _ rest => retFree rest
  | .branch _ t e rest => retFree t && retFree e && retFree rest
  | .tryCatch b h rest => retFree b && retFree h && retFree rest
  | .tryFinally b f rest => retFree b && retFree f && retFree rest

/-- No screenshot call with path `q` occurs anywhere in the program. -/
def noShot (q : String) (p : Prog) : Bool := !(decide (q ∈ shotPaths p))

/-- Every screenshot call writing `q` sits at a tail position: once it has
succeeded, the remainder of the program cannot raise.  Used to show that a
run that ends in an uncaught exception cannot have written `q`. -/
def tailShot (q : String) : Prog → Bool
  | .done => true
  | .ret => true
  | .act a rest =>
      if q ∈ shotOf a then cannotRaise rest else tailShot q rest
  | .branch _ t e rest => noShot q t && noShot q e && tailShot q rest
  | .tryCatch b h rest => noShot q b && noShot q h && tailShot q rest
  | .tryFinally b f rest =>
      tailShot q b && noShot q f && cannotRaise f && noShot q rest && cannotRaise rest

/-- On every path that completes normally, the program has attempted a
browser.close() call. -/
def okCloses : Prog → Bool
  | .done => false
  | .ret => true
  | .act a rest => (if a = .closeBrowser then true else okCloses rest)
  | .branch _ t e rest => (okCloses t && okCloses e) || okCloses rest
  | .tryCatch b h rest => (okCloses b && okCloses h) || okCloses rest
  | .tryFinally b f rest => okCloses b || okCloses f || okCloses rest

/-- On every path that completes normally, the program has successfully
taken a screenshot with path `q`. -/
def okWrites (q : String) : Prog → Bool
  | .done => false
  | .ret => true
  | .act a rest => (if q ∈ shotOf a then true else okWrites q rest)
  | .branch _ t e rest => (okWrites q t && okWrites q e) || okWrites q rest
  | .tryCatch b h rest => (okWrites q b && okWrites q h) || okWrites q rest
  | .tryFinally b f rest => okWrites q b || okWrites q f || okWrites q rest

/-- The calls guaranteed to have been attempted, in order, on every path
that completes normally (branch arms and try bodies are skipped: only the
unconditional spine and all three parts of a try/finally are collected). -/
def mustActs : Prog → List Act
  | .done => []
  | .ret => []
  | .act a rest => a :: mustActs rest
  | .branch _ _ _ rest => mustActs rest
  | .tryCatch _ _ rest => mustActs rest
  | .tryFinally b f rest => mustActs b ++ mustActs f ++ mustActs rest

/-- Is `p.endsWith ".png"`-style check, spelled on character lists: the
path names a PNG file under one of the two verification directories. -/
def pngUnderVerification (p : String) : Bool :=
  (".png".data.isSuffixOf p.data) &&
    (("verification/".data.isPrefixOf p.data) ||
     ("jules-scratch/verification/".data.isPrefixOf p.data))

/-- Last-writer-wins view of running several screenshot-producing runs in
sequence: `runsList` pairs a run identifier with the paths it wrote. -/
def lastWriter (runsList : List (Nat × List String)) (p : String) : Option Nat :=
  runsList.foldl (fun acc r => if p ∈ r.2 then some r.1 else acc) none

/-!
### Unit-conversion model for the unit-toggling scenario

The grid-size unit logic lives in the web application, which is absent from
the source tree; only the scripts' printed expectations about it appear in
src/.  The next definitions are therefore modelled from the spec.
-/

/-- Modelled from the spec: the web application implementing the grid-size
unit conversion is missing from src/.  Conversion factor between keyboard
units and millimetres, per the spec sentence "1 U → ~19.05 mm". -/
def mmPerU : ℚ := 1905 / 100

/-- Modelled from the spec: display conversion of a grid size from U to
mm (the application is missing from src/). -/
def uToMm (v : ℚ) : ℚ := v * mmPerU

/-- Modelled from the spec: rounding to three decimal places, the rounding
implied by the scripted expectation ~0.525 for 10 / 19.05 (the application
is missing from src/). -/
def round3 (v : ℚ) : ℚ := (⌊v * 1000 + 1 / 2⌋ : ℚ) / 1000

/-- Modelled from the spec: display conversion of a grid size from mm to
U, rounded to three decimals (the application is missing from src/). -/
def mmToU (v : ℚ) : ℚ := round3 (v / mmPerU)

/-- Modelled from the spec: the unit control cycles U → u → mm → U, per
the comments scripted in verify_unit_input.py lines 41-44 (the application
is missing from src/). -/
def nextUnit : String → String := fun u =>
  if u = "U" then "u" else if u = "u" then "mm" else if u = "mm" then "U" else u

/-- Successor state of a call that is attempted and succeeds. -/
def okStep (s : St) (a : Act) : St :=
  { s with
    attempted := s.attempted ++ [(a, s.clock)],
    nf := s.nf + (if fallible a then 1 else 0),
    clock := s.clock + dur a,
    writes := s.writes ++ shotOf a }

/-- The interpreter state of a script right after its infallible
launch and new_page calls, at which the jscad script's try statement
starts. -/
def jscadStart : St := okStep (okStep st0 .launch) .newPage

/-- The timed clicks of the Generate button in a run of the confetti
script. -/
def genClicks (r : St × Outcome) : List (Act × Nat) :=
  r.1.attempted.filter (fun x => x.1 = Act.click "get_by_role button, name=Generate")

/-!
### Generic lemmas about the interpreter
-/

theorem run_done (env : Env) (s : St) : run .done env s = (s, .ok) := rfl

theorem run_act_fail (a : Act) (rest : Prog) (env : Env) (s : St)
    (hf : (fallible a && env.fails s.nf) = true) :
    run (.act a rest) env s =
      ({ s with attempted := s.attempted ++ [(a, s.clock)], nf := s.nf + 1 },
        .raised) := by
  simp [run, hf]

theorem run_act_succ (a : Act) (rest : Prog) (env : Env) (s : St)
    (hf : (fallible a && env.fails s.nf) = false) :
    run (.act a rest) env s = run rest env (okStep s a) := by
  simp [run, hf, okStep]

theorem run_act_infall (a : Act) (ha : fallible a = false) (rest : Prog) (env : Env)
    (s : St) : run (.act a rest) env s = run rest env (okStep s a) :=
  run_act_succ a rest env s (by simp [ha])

theorem run_act_fails (a : Act) (ha : fallible a = true) (rest : Prog) (env : Env)
    (s : St) (hf : env.fails s.nf = true) :
    run (.act a rest) env s =
      ({ s with attempted := s.attempted ++ [(a, s.clock)], nf := s.nf + 1 },
        .raised) :=
  run_act_fail a rest env s (by simp [ha, hf])

theorem run_act_ok (a : Act) (ha : fallible a = true) (rest : Prog) (env : Env)
    (s : St) (hf : env.fails s.nf = false) :
    run (.act a rest) env s = run rest env (okStep s a) :=
  run_act_succ a rest env s (by simp [ha, hf])

theorem run_branch_eq (c : String) (t e rest : Prog) (env : Env) (s : St) :
    run (.branch c t e rest) env s =
      match (if env.branches s.nb
              then run t env { s with nb := s.nb + 1 }
              else run e env { s with nb := s.nb + 1 }) with
      | (s2, .ok) => run rest env s2
      | (s2, o) => (s2, o) := rfl

theorem run_tryCatch_eq (b h rest : Prog) (env : Env) (s : St) :
    run (.tryCatch b h rest) env s =
      match run b env s with
      | (s1, .raised) =>
          (match run h env s1 with
           | (s2, .ok) => run rest env s2
           | (s2, o2) => (s2, o2))
      | (s1, .ok) => run rest env s1
      | (s1, o) => (s1, o) := rfl

theorem run_tryFinally_eq (b f rest : Prog) (env : Env) (s : St) :
    run (.tryFinally b f rest) env s =
      match run b env s with
      | (s1, o) =>
          match run f env s1 with
          | (s2, .ok) => (match o with | .ok => run rest env s2 | _ => (s2, o))
          | (s2, o2) => (s2, o2) := rfl

/-- In an environment where no call fails, a straight-line chunk runs to
its continuation, folding the success step over its calls. -/
theorem run_seq_success (l : List Act) (k : Prog) (env : Env) (s : St)
    (h : ∀ n, env.fails n = false) :
    run (seq l k) env s = run k env (l.foldl okStep s) := by
  induction l generalizing s with
  | nil => rfl
  | cons a l ih =>
      rw [seq, run_act_succ a _ env s (by simp [h]), List.foldl_cons]
      exact ih _

theorem run_branch_ok (c : String) (t e rest : Prog) (env : Env) (s s2 : St)
    (hr : (if env.branches s.nb
            then run t env { s with nb := s.nb + 1 }
            else run e env { s with nb := s.nb + 1 }) = (s2, .ok)) :
    run (.branch c t e rest) env s = run rest env s2 := by
  simp only [run_branch_eq, hr]

theorem run_branch_stop (c : String) (t e rest : Prog) (env : Env) (s s2 : St)
    (o : Outcome) (ho : o ≠ .ok)
    (hr : (if env.branches s.nb
            then run t env { s with nb := s.nb + 1 }
            else run e env { s with nb := s.nb + 1 }) = (s2, o)) :
    run (.branch c t e rest) env s = (s2, o) := by
  cases o with
  | ok => exact absurd rfl ho
  | retd => simp only [run_branch_eq, hr]
  | raised => simp only [run_branch_eq, hr]

theorem run_tryCatch_ok (b h rest : Prog) (env : Env) (s s1 : St)
    (hb : run b env s = (s1, .ok)) :
    run (.tryCatch b h rest) env s = run rest env s1 := by
  simp only [run_tryCatch_eq, hb]

theorem run_tryCatch_retd (b h rest : Prog) (env : Env) (s s1 : St)
    (hb : run b env s = (s1, .retd)) :
    run (.tryCatch b h rest) env s = (s1, .retd) := by
  simp only [run_tryCatch_eq, hb]

theorem run_tryCatch_raised_ok (b h rest : Prog) (env : Env) (s s1 s2 : St)
    (hb : run b env s = (s1, .raised)) (hh : run h env s1 = (s2, .ok)) :
    run (.tryCatch b h rest) env s = run rest env s2 := by
  simp only [run_tryCatch_eq, hb, hh]

theorem run_tryCatch_raised_stop (b h rest : Prog) (env : Env) (s s1 s2 : St)
    (o2 : Outcome) (ho2 : o2 ≠ .ok)
    (hb : run b env s = (s1, .raised)) (hh : run h env s1 = (s2, o2)) :
    run (.tryCatch b h rest) env s = (s2, o2) := by
  cases o2 with
  | ok => exact absurd rfl ho2
  | retd => simp only [run_tryCatch_eq, hb, hh]
  | raised => simp only [run_tryCatch_eq, hb, hh]

theorem run_tryFinally_finStop (b f rest : Prog) (env : Env) (s s1 s2 : St)
    (o o2 : Outcome) (ho2 : o2 ≠ .ok)
    (hb : run b env s = (s1, o)) (hf2 : run f env s1 = (s2, o2)) :
    run (.tryFinally b f rest) env s = (s2, o2) := by
  cases o2 with
  | ok => exact absurd rfl ho2
  | retd => cases o <;> simp only [run_tryFinally_eq, hb, hf2]
  | raised => cases o <;> simp only [run_tryFinally_eq, hb, hf2]

theorem run_tryFinally_ok (b f rest : Prog) (env : Env) (s s1 s2 : St)
    (hb : run b env s = (s1, .ok)) (hf2 : run f env s1 = (s2, .ok)) :
    run (.tryFinally b f rest) env s = run rest env s2 := by
  simp only [run_tryFinally_eq, hb, hf2]

theorem run_tryFinally_bodyStop (b f rest : Prog) (env : Env) (s s1 s2 : St)
    (o : Outcome) (ho : o ≠ .ok)
    (hb : run b env s = (s1, o)) (hf2 : run f env s1 = (s2, .ok)) :
    run (.tryFinally b f rest) env s = (s2, o) := by
  cases o with
  | ok => exact absurd rfl ho
  | retd => simp only [run_tryFinally_eq, hb, hf2]
  | raised => simp only [run_tryFinally_eq, hb, hf2]

/-- Structural effect decomposition: a run only appends to the attempted
trace and to the write log, and everything appended to the write log is
the path of a screenshot call occurring syntactically in the program. -/
theorem run_effects (p : Prog) (env : Env) (s : St) :
    ∃ t w, (run p env s).1.attempted = s.attempted ++ t ∧
      (run p env s).1.writes = s.writes ++ w ∧
      ∀ x ∈ w, x ∈ shotPaths p := by
  induction p generalizing s with
  | done => exact ⟨[], [], by simp [run], by simp [run], by simp⟩
  | ret => exact ⟨[], [], by simp [run], by simp [run], by simp⟩
  | act a rest ih =>
      by_cases hf : (fallible a && env.fails s.nf) = true
      · refine ⟨[(a, s.clock)], [], ?_, ?_, by simp⟩
        · rw [run_act_fail a rest env s hf]
        · rw [run_act_fail a rest env s hf]; simp
      · have hf2 : (fallible a && env.fails s.nf) = false := by
          simpa using hf
        rw [run_act_succ a rest env s hf2]
        obtain ⟨t, w, h1, h2, h3⟩ := ih (okStep s a)
        refine ⟨(a, s.clock) :: t, shotOf a ++ w, ?_, ?_, ?_⟩
        · rw [h1]; simp [okStep]
        · rw [h2]; simp [okStep]
        · intro x hx
          simp only [shotPaths]
          rcases List.mem_append.mp hx with hx | hx
          · exact List.mem_append_left _ hx
          · exact List.mem_append_right _ (h3 x hx)
  | branch c t e rest iht ihe ihr =>
      rcases hr : (if env.branches s.nb
          then run t env { s with nb := s.nb + 1 }
          else run e env { s with nb := s.nb + 1 }) with ⟨s2, o⟩
      have hsub : ∃ t1 w1, s2.attempted = s.attempted ++ t1 ∧
          s2.writes = s.writes ++ w1 ∧
          ∀ x ∈ w1, x ∈ shotPaths (.branch c t e rest) := by
        by_cases hb : env.branches s.nb = true
        · rw [if_pos hb] at hr
          obtain ⟨t1, w1, h1, h2, h3⟩ := iht { s with nb := s.nb + 1 }
          rw [hr] at h1 h2
          refine ⟨t1, w1, h1, h2, fun x hx => ?_⟩
          simp only [shotPaths]
          exact List.mem_append_left _ (List.mem_append_left _ (h3 x hx))
        · rw [if_neg hb] at hr
          obtain ⟨t1, w1, h1, h2, h3⟩ := ihe { s with nb := s.nb + 1 }
          rw [hr] at h1 h2
          refine ⟨t1, w1, h1, h2, fun x hx => ?_⟩
          simp only [shotPaths]
          exact List.mem_append_left _ (List.mem_append_right _ (h3 x hx))
      obtain ⟨t1, w1, h1, h2, h3⟩ := hsub
      cases o with
      | ok =>
          rw [run_branch_ok c t e rest env s s2 hr]
          obtain ⟨t2, w2, g1, g2, g3⟩ := ihr s2
          refine ⟨t1 ++ t2, w1 ++ w2, ?_, ?_, ?_⟩
          · rw [g1, h1, List.append_assoc]
          · rw [g2, h2, List.append_assoc]
          · intro x hx
            rcases List.mem_append.mp hx with hx | hx
            · exact h3 x hx
            · simp only [shotPaths]
              exact List.mem_append_right _ (g3 x hx)
      | retd =>
          rw [run_branch_stop c t e rest env s s2 _ (by simp) hr]
          exact ⟨t1, w1, h1, h2, h3⟩
      | raised =>
          rw [run_branch_stop c t e rest env s s2 _ (by simp) hr]
          exact ⟨t1, w1, h1, h2, h3⟩
  | tryCatch b h rest ihb ihh ihr =>
      rcases hb : run b env s with ⟨s1, o⟩
      obtain ⟨t1, w1, h1, h2, h3⟩ := ihb s
      rw [hb] at h1 h2
      cases o with
      | ok =>
          rw [run_tryCatch_ok b h rest env s s1 hb]
          obtain ⟨t2, w2, g1, g2, g3⟩ := ihr s1
          refine ⟨t1 ++ t2, w1 ++ w2, ?_, ?_, ?_⟩
          · rw [g1, h1, List.append_assoc]
          · rw [g2, h2, List.append_assoc]
          · intro x hx
            simp only [shotPaths]
            rcases List.mem_append.mp hx with hx | hx
            · exact List.mem_append_left _ (List.mem_append_left _ (h3 x hx))
            · exact List.mem_append_right _ (g3 x hx)
      | retd =>
          rw [run_tryCatch_retd b h rest env s s1 hb]
          refine ⟨t1, w1, h1, h2, fun x hx => ?_⟩
          simp only [shotPaths]
          exact List.mem_append_left _ (List.mem_append_left _ (h3 x hx))
      | raised =>
          rcases hh : run h env s1 with ⟨s2, o2⟩
          obtain ⟨t2, w2, g1, g2, g3⟩ := ihh s1
          rw [hh] at g1 g2
          have hmem : ∀ x ∈ w1 ++ w2, x ∈ shotPaths (.tryCatch b h rest) := by
            intro x hx
            simp only [shotPaths]
            rcases List.mem_append.mp hx with hx | hx
            · exact List.mem_append_left _ (List.mem_append_left _ (h3 x hx))
            · exact List.mem_append_left _ (List.mem_append_right _ (g3 x hx))
          cases o2 with
          | ok =>
              rw [run_tryCatch_raised_ok b h rest env s s1 s2 hb hh]
              obtain ⟨t3, w3, k1, k2, k3⟩ := ihr s2
              refine ⟨t1 ++ (t2 ++ t3), w1 ++ (w2 ++ w3), ?_, ?_, ?_⟩
              · rw [k1, g1, h1]; simp [List.append_assoc]
              · rw [k2, g2, h2]; simp [List.append_assoc]
              · intro x hx
                rcases List.mem_append.mp hx with hx | hx
                · exact hmem x (List.mem_append_left _ hx)
                · rcases List.mem_append.mp hx with hx | hx
                  · exact hmem x (List.mem_append_right _ hx)
                  · simp only [shotPaths]
                    exact List.mem_append_right _ (k3 x hx)
          | retd =>
              rw [run_tryCatch_raised_stop b h rest env s s1 s2 _ (by simp) hb hh]
              refine ⟨t1 ++ t2, w1 ++ w2, ?_, ?_, hmem⟩
              · rw [g1, h1, List.append_assoc]
              · rw [g2, h2, List.append_assoc]
          | raised =>
              rw [run_tryCatch_raised_stop b h rest env s s1 s2 _ (by simp) hb hh]
              refine ⟨t1 ++ t2, w1 ++ w2, ?_, ?_, hmem⟩
              · rw [g1, h1, List.append_assoc]
              · rw [g2, h2, List.append_assoc]
  | tryFinally b f rest ihb ihf ihr =>
      rcases hb : run b env s with ⟨s1, o⟩
      obtain ⟨t1, w1, h1, h2, h3⟩ := ihb s
      rw [hb] at h1 h2
      rcases hf2 : run f env s1 with ⟨s2, o2⟩
      obtain ⟨t2, w2, g1, g2, g3⟩ := ihf s1
      rw [hf2] at g1 g2
      have hmem : ∀ x ∈ w1 ++ w2, x ∈ shotPaths (.tryFinally b f rest) := by
        intro x hx
        simp only [shotPaths]
        rcases List.mem_append.mp hx with hx | hx
        · exact List.mem_append_left _ (List.mem_append_left _ (h3 x hx))
        · exact List.mem_append_left _ (List.mem_append_right _ (g3 x hx))
      cases o2 with
      | ok =>
          cases o with
          | ok =>
              rw [run_tryFinally_ok b f rest env s s1 s2 hb hf2]
              obtain ⟨t3, w3, k1, k2, k3⟩ := ihr s2
              refine ⟨t1 ++ (t2 ++ t3), w1 ++ (w2 ++ w3), ?_, ?_, ?_⟩
              · rw [k1, g1, h1]; simp [List.append_assoc]
              · rw [k2, g2, h2]; simp [List.append_assoc]
              · intro x hx
                rcases List.mem_append.mp hx with hx | hx
                · exact hmem x (List.mem_append_left _ hx)
                · rcases List.mem_append.mp hx with hx | hx
                  · exact hmem x (List.mem_append_right _ hx)
                  · simp only [shotPaths]
                    exact List.mem_append_right _ (k3 x hx)
          | retd =>
              rw [run_tryFinally_bodyStop b f rest env s s1 s2 _ (by simp) hb hf2]
              refine ⟨t1 ++ t2, w1 ++ w2, ?_, ?_, hmem⟩
              · rw [g1, h1, List.append_assoc]
              · rw [g2, h2, List.append_assoc]
          | raised =>
              rw [run_tryFinally_bodyStop b f rest env s s1 s2 _ (by simp) hb hf2]
              refine ⟨t1 ++ t2, w1 ++ w2, ?_, ?_, hmem⟩
              · rw [g1, h1, List.append_assoc]
              · rw [g2, h2, List.append_assoc]
      | retd =>
          rw [run_tryFinally_finStop b f rest env s s1 s2 _ _ (by simp) hb hf2]
          refine ⟨t1 ++ t2, w1 ++ w2, ?_, ?_, hmem⟩
          · rw [g1, h1, List.append_assoc]
          · rw [g2, h2, List.append_assoc]
      | raised =>
          rw [run_tryFinally_finStop b f rest env s s1 s2 _ _ (by simp) hb hf2]
          refine ⟨t1 ++ t2, w1 ++ w2, ?_, ?_, hmem⟩
          · rw [g1, h1, List.append_assoc]
          · rw [g2, h2, List.append_assoc]

/-- A program satisfying `cannotRaise` never ends in an uncaught raise. -/
theorem cannot_raise_sound (p : Prog) (env : Env) :
    ∀ s : St, cannotRaise p = true → (run p env s).2 ≠ .raised := by
  induction p with
  | done => intro s _; simp [run]
  | ret => intro s _; simp [run]
  | act a rest ih =>
      intro s hp
      simp only [cannotRaise, Bool.and_eq_true, Bool.not_eq_true'] at hp
      have hf : (fallible a && env.fails s.nf) = false := by simp [hp.1]
      rw [run_act_succ a rest env s hf]
      exact ih _ hp.2
  | branch c t e rest iht ihe ihr =>
      intro s hp
      simp only [cannotRaise, Bool.and_eq_true] at hp
      obtain ⟨⟨ht, he⟩, hr⟩ := hp
      rcases hq : (if env.branches s.nb
          then run t env { s with nb := s.nb + 1 }
          else run e env { s with nb := s.nb + 1 }) with ⟨s2, o⟩
      have ho : o ≠ .raised := by
        by_cases hbb : env.branches s.nb = true
        · rw [if_pos hbb] at hq
          have := iht { s with nb := s.nb + 1 } ht
          rw [hq] at this
          simpa using this
        · rw [if_neg hbb] at hq
          have := ihe { s with nb := s.nb + 1 } he
          rw [hq] at this
          simpa using this
      cases o with
      | ok => rw [run_branch_ok c t e rest env s s2 hq]; exact ihr _ hr
      | retd => rw [run_branch_stop c t e rest env s s2 _ (by simp) hq]; simp
      | raised => exact absurd rfl ho
  | tryCatch b h rest ihb ihh ihr =>
      intro s hp
      simp only [cannotRaise, Bool.and_eq_true, Bool.or_eq_true] at hp
      obtain ⟨hbh, hr⟩ := hp
      rcases hb : run b env s with ⟨s1, o⟩
      cases o with
      | ok => rw [run_tryCatch_ok b h rest env s s1 hb]; exact ihr _ hr
      | retd => rw [run_tryCatch_retd b h rest env s s1 hb]; simp
      | raised =>
          rcases hbh with hcb | hch
          · have := ihb s hcb
            rw [hb] at this
            simp at this
          · rcases hh : run h env s1 with ⟨s2, o2⟩
            have ho2 : o2 ≠ .raised := by
              have := ihh s1 hch
              rw [hh] at this
              simpa using this
            cases o2 with
            | ok => rw [run_tryCatch_raised_ok b h rest env s s1 s2 hb hh]; exact ihr _ hr
            | retd =>
                rw [run_tryCatch_raised_stop b h rest env s s1 s2 _ (by simp) hb hh]
                simp
            | raised => exact absurd rfl ho2
  | tryFinally b f rest ihb ihf ihr =>
      intro s hp
      simp only [cannotRaise, Bool.and_eq_true] at hp
      obtain ⟨⟨hcb, hcf⟩, hr⟩ := hp
      rcases hb : run b env s with ⟨s1, o⟩
      have ho : o ≠ .raised := by
        have := ihb s hcb
        rw [hb] at this
        simpa using this
      rcases hf2 : run f env s1 with ⟨s2, o2⟩
      have ho2 : o2 ≠ .raised := by
        have := ihf s1 hcf
        rw [hf2] at this
        simpa using this
      cases o2 with
      | ok =>
          cases o with
          | ok => rw [run_tryFinally_ok b f rest env s s1 s2 hb hf2]; exact ihr _ hr
          | retd =>
              rw [run_tryFinally_bodyStop b f rest env s s1 s2 _ (by simp) hb hf2]
              simp
          | raised => exact absurd rfl ho
      | retd =>
          rw [run_tryFinally_finStop b f rest env s s1 s2 _ _ (by simp) hb hf2]
          simp
      | raised => exact absurd rfl ho2

/-- A program with no `return` statement never ends in the returned
outcome. -/
theorem ret_free_sound (p : Prog) (env : Env) :
    ∀ s : St, retFree p = true → (run p env s).2 ≠ .retd := by
  induction p with
  | done => intro s _; simp [run]
  | ret => intro s hp; simp [retFree] at hp
  | act a rest ih =>
      intro s hp
      simp only [retFree] at hp
      by_cases hf : (fallible a && env.fails s.nf) = true
      · rw [run_act_fail a rest env s hf]; simp
      · rw [run_act_succ a rest env s (by simpa using hf)]
        exact ih _ hp
  | branch c t e rest iht ihe ihr =>
      intro s hp
      simp only [retFree, Bool.and_eq_true] at hp
      obtain ⟨⟨ht, he⟩, hr⟩ := hp
      rcases hq : (if env.branches s.nb
          then run t env { s with nb := s.nb + 1 }
          else run e env { s with nb := s.nb + 1 }) with ⟨s2, o⟩
      have ho : o ≠ .retd := by
        by_cases hbb : env.branches s.nb = true
        · rw [if_pos hbb] at hq
          have := iht { s with nb := s.nb + 1 } ht
          rw [hq] at this
          simpa using this
        · rw [if_neg hbb] at hq
          have := ihe { s with nb := s.nb + 1 } he
          rw [hq] at this
          simpa using this
      cases o with
      | ok => rw [run_branch_ok c t e rest env s s2 hq]; exact ihr _ hr
      | retd => exact absurd rfl ho
      | raised => rw [run_branch_stop c t e rest env s s2 _ (by simp) hq]; simp
  | tryCatch b h rest ihb ihh ihr =>
      intro s hp
      simp only [retFree, Bool.and_eq_true] at hp
      obtain ⟨⟨hpb, hph⟩, hr⟩ := hp
      rcases hb : run b env s with ⟨s1, o⟩
      have ho : o ≠ .retd := by
        have := ihb s hpb
        rw [hb] at this
        simpa using this
      cases o with
      | ok => rw [run_tryCatch_ok b h rest env s s1 hb]; exact ihr _ hr
      | retd => exact absurd rfl ho
      | raised =>
          rcases hh : run h env s1 with ⟨s2, o2⟩
          have ho2 : o2 ≠ .retd := by
            have := ihh s1 hph
            rw [hh] at this
            simpa using this
          cases o2 with
          | ok => rw [run_tryCatch_raised_ok b h rest env s s1 s2 hb hh]; exact ihr _ hr
          | retd => exact absurd rfl ho2
          | raised =>
              rw [run_tryCatch_raised_stop b h rest env s s1 s2 _ (by simp) hb hh]
              simp
  | tryFinally b f rest ihb ihf ihr =>
      intro s hp
      simp only [retFree, Bool.and_eq_true] at hp
      obtain ⟨⟨hpb, hpf⟩, hr⟩ := hp
      rcases hb : run b env s with ⟨s1, o⟩
      have ho : o ≠ .retd := by
        have := ihb s hpb
        rw [hb] at this
        simpa using this
      rcases hf2 : run f env s1 with ⟨s2, o2⟩
      have ho2 : o2 ≠ .retd := by
        have := ihf s1 hpf
        rw [hf2] at this
        simpa using this
      cases o2 with
      | ok =>
          cases o with
          | ok => rw [run_tryFinally_ok b f rest env s s1 s2 hb hf2]; exact ihr _ hr
          | retd => exact absurd rfl ho
          | raised =>
              rw [run_tryFinally_bodyStop b f rest env s s1 s2 _ (by simp) hb hf2]
              simp
      | retd => exact absurd rfl ho2
      | raised =>
          rw [run_tryFinally_finStop b f rest env s s1 s2 _ _ (by simp) hb hf2]
          simp

/-- A program satisfying `okCloses` has attempted browser.close() on every
path that completes normally. -/
theorem ok_closes_sound (p : Prog) (env : Env) :
    ∀ s : St, okCloses p = true → (run p env s).2 = .ok →
      Act.closeBrowser ∈ (run p env s).1.attempted.map Prod.fst := by
  induction p with
  | done => intro s hp; simp [okCloses] at hp
  | ret => intro s _ hok; simp [run] at hok
  | act a rest ih =>
      intro s hp hok
      by_cases hf : (fallible a && env.fails s.nf) = true
      · rw [run_act_fail a rest env s hf] at hok; simp at hok
      · rw [run_act_succ a rest env s (by simpa using hf)] at hok ⊢
        by_cases hac : a = Act.closeBrowser
        · obtain ⟨t, w, h1, _, _⟩ := run_effects rest env (okStep s a)
          rw [h1, List.map_append]
          apply List.mem_append_left
          subst hac
          simp [okStep]
        · have hp2 : okCloses rest = true := by
            simpa [okCloses, hac] using hp
          exact ih _ hp2 hok
  | branch c t e rest iht ihe ihr =>
      intro s hp hok
      simp only [okCloses, Bool.or_eq_true, Bool.and_eq_true] at hp
      rcases hq : (if env.branches s.nb
          then run t env { s with nb := s.nb + 1 }
          else run e env { s with nb := s.nb + 1 }) with ⟨s2, o⟩
      cases o with
      | ok =>
          rw [run_branch_ok c t e rest env s s2 hq] at hok ⊢
          rcases hp with ⟨hpt, hpe⟩ | hpr
          · have hsub : Act.closeBrowser ∈ s2.attempted.map Prod.fst := by
              by_cases hbb : env.branches s.nb = true
              · rw [if_pos hbb] at hq
                have := iht { s with nb := s.nb + 1 } hpt (by rw [hq])
                rw [hq] at this
                exact this
              · rw [if_neg hbb] at hq
                have := ihe { s with nb := s.nb + 1 } hpe (by rw [hq])
                rw [hq] at this
                exact this
            obtain ⟨t3, _, h1, _, _⟩ := run_effects rest env s2
            rw [h1, List.map_append]
            exact List.mem_append_left _ hsub
          · exact ihr _ hpr hok
      | retd =>
          rw [run_branch_stop c t e rest env s s2 _ (by simp) hq] at hok
          simp at hok
      | raised =>
          rw [run_branch_stop c t e rest env s s2 _ (by simp) hq] at hok
          simp at hok
  | tryCatch b h rest ihb ihh ihr =>
      intro s hp hok
      simp only [okCloses, Bool.or_eq_true, Bool.and_eq_true] at hp
      rcases hb : run b env s with ⟨s1, o⟩
      cases o with
      | ok =>
          rw [run_tryCatch_ok b h rest env s s1 hb] at hok ⊢
          rcases hp with ⟨hpb, _⟩ | hpr
          · have hsub := ihb s hpb (by rw [hb])
            rw [hb] at hsub
            obtain ⟨t3, _, h1, _, _⟩ := run_effects rest env s1
            rw [h1, List.map_append]
            exact List.mem_append_left _ hsub
          · exact ihr _ hpr hok
      | retd =>
          rw [run_tryCatch_retd b h rest env s s1 hb] at hok
          simp at hok
      | raised =>
          rcases hh : run h env s1 with ⟨s2, o2⟩
          cases o2 with
          | ok =>
              rw [run_tryCatch_raised_ok b h rest env s s1 s2 hb hh] at hok ⊢
              rcases hp with ⟨_, hph⟩ | hpr
              · have hsub := ihh s1 hph (by rw [hh])
                rw [hh] at hsub
                obtain ⟨t3, _, h1, _, _⟩ := run_effects rest env s2
                rw [h1, List.map_append]
                exact List.mem_append_left _ hsub
              · exact ihr _ hpr hok
          | retd =>
              rw [run_tryCatch_raised_stop b h rest env s s1 s2 _ (by simp) hb hh] at hok
              simp at hok
          | raised =>
              rw [run_tryCatch_raised_stop b h rest env s s1 s2 _ (by simp) hb hh] at hok
              simp at hok
  | tryFinally b f rest ihb ihf ihr =>
      intro s hp hok
      simp only [okCloses, Bool.or_eq_true] at hp
      rcases hb : run b env s with ⟨s1, o⟩
      rcases hf2 : run f env s1 with ⟨s2, o2⟩
      cases o2 with
      | ok =>
          cases o with
          | ok =>
              rw [run_tryFinally_ok b f rest env s s1 s2 hb hf2] at hok ⊢
              rcases hp with (hpb | hpf) | hpr
              · have hsub := ihb s hpb (by rw [hb])
                rw [hb] at hsub
                obtain ⟨t2, _, g1, _, _⟩ := run_effects f env s1
                rw [hf2] at g1
                obtain ⟨t3, _, k1, _, _⟩ := run_effects rest env s2
                rw [k1, g1, List.map_append, List.map_append]
                exact List.mem_append_left _ (List.mem_append_left _ hsub)
              · have hsub := ihf s1 hpf (by rw [hf2])
                rw [hf2] at hsub
                obtain ⟨t3, _, k1, _, _⟩ := run_effects rest env s2
                rw [k1, List.map_append]
                exact List.mem_append_left _ hsub
              · exact ihr _ hpr hok
          | retd =>
              rw [run_tryFinally_bodyStop b f rest env s s1 s2 _ (by simp) hb hf2] at hok
              simp at hok
          | raised =>
              rw [run_tryFinally_bodyStop b f rest env s s1 s2 _ (by simp) hb hf2] at hok
              simp at hok
      | retd =>
          rw [run_tryFinally_finStop b f rest env s s1 s2 _ _ (by simp) hb hf2] at hok
          simp at hok
      | raised =>
          rw [run_tryFinally_finStop b f rest env s s1 s2 _ _ (by simp) hb hf2] at hok
          simp at hok

/-- A program satisfying `okWrites q` has the path `q` in its write log on
every path that completes normally. -/
theorem ok_writes_sound (q : String) (p : Prog) (env : Env) :
    ∀ s : St, okWrites q p = true → (run p env s).2 = .ok →
      q ∈ (run p env s).1.writes := by
  induction p with
  | done => intro s hp; simp [okWrites] at hp
  | ret => intro s _ hok; simp [run] at hok
  | act a rest ih =>
      intro s hp hok
      by_cases hf : (fallible a && env.fails s.nf) = true
      · rw [run_act_fail a rest env s hf] at hok; simp at hok
      · rw [run_act_succ a rest env s (by simpa using hf)] at hok ⊢
        by_cases haq : q ∈ shotOf a
        · obtain ⟨t, w, _, h2, _⟩ := run_effects rest env (okStep s a)
          rw [h2]
          apply List.mem_append_left
          simp only [okStep]
          exact List.mem_append_right _ haq
        · have hp2 : okWrites q rest = true := by
            simpa [okWrites, haq] using hp
          exact ih _ hp2 hok
  | branch c t e rest iht ihe ihr =>
      intro s hp hok
      simp only [okWrites, Bool.or_eq_true, Bool.and_eq_true] at hp
      rcases hq : (if env.branches s.nb
          then run t env { s with nb := s.nb + 1 }
          else run e env { s with nb := s.nb + 1 }) with ⟨s2, o⟩
      cases o with
      | ok =>
          rw [run_branch_ok c t e rest env s s2 hq] at hok ⊢
          rcases hp with ⟨hpt, hpe⟩ | hpr
          · have hsub : q ∈ s2.writes := by
              by_cases hbb : env.branches s.nb = true
              · rw [if_pos hbb] at hq
                have := iht { s with nb := s.nb + 1 } hpt (by rw [hq])
                rw [hq] at this
                exact this
              · rw [if_neg hbb] at hq
                have := ihe { s with nb := s.nb + 1 } hpe (by rw [hq])
                rw [hq] at this
                exact this
            obtain ⟨_, _, _, h2, _⟩ := run_effects rest env s2
            rw [h2]
            exact List.mem_append_left _ hsub
          · exact ihr _ hpr hok
      | retd =>
          rw [run_branch_stop c t e rest env s s2 _ (by simp) hq] at hok
          simp at hok
      | raised =>
          rw [run_branch_stop c t e rest env s s2 _ (by simp) hq] at hok
          simp at hok
  | tryCatch b h rest ihb ihh ihr =>
      intro s hp hok
      simp only [okWrites, Bool.or_eq_true, Bool.and_eq_true] at hp
      rcases hb : run b env s with ⟨s1, o⟩
      cases o with
      | ok =>
          rw [run_tryCatch_ok b h rest env s s1 hb] at hok ⊢
          rcases hp with ⟨hpb, _⟩ | hpr
          · have hsub := ihb s hpb (by rw [hb])
            rw [hb] at hsub
            obtain ⟨_, _, _, h2, _⟩ := run_effects rest env s1
            rw [h2]
            exact List.mem_append_left _ hsub
          · exact ihr _ hpr hok
      | retd =>
          rw [run_tryCatch_retd b h rest env s s1 hb] at hok
          simp at hok
      | raised =>
          rcases hh : run h env s1 with ⟨s2, o2⟩
          cases o2 with
          | ok =>
              rw [run_tryCatch_raised_ok b h rest env s s1 s2 hb hh] at hok ⊢
              rcases hp with ⟨_, hph⟩ | hpr
              · have hsub := ihh s1 hph (by rw [hh])
                rw [hh] at hsub
                obtain ⟨_, _, _, h2, _⟩ := run_effects rest env s2
                rw [h2]
                exact List.mem_append_left _ hsub
              · exact ihr _ hpr hok
          | retd =>
              rw [run_tryCatch_raised_stop b h rest env s s1 s2 _ (by simp) hb hh] at hok
              simp at hok
          | raised =>
              rw [run_tryCatch_raised_stop b h rest env s s1 s2 _ (by simp) hb hh] at hok
              simp at hok
  | tryFinally b f rest ihb ihf ihr =>
      intro s hp hok
      simp only [okWrites, Bool.or_eq_true] at hp
      rcases hb : run b env s with ⟨s1, o⟩
      rcases hf2 : run f env s1 with ⟨s2, o2⟩
      cases o2 with
      | ok =>
          cases o with
          | ok =>
              rw [run_tryFinally_ok b f rest env s s1 s2 hb hf2] at hok ⊢
              rcases hp with (hpb | hpf) | hpr
              · have hsub := ihb s hpb (by rw [hb])
                rw [hb] at hsub
                obtain ⟨_, _, _, g2, _⟩ := run_effects f env s1
                rw [hf2] at g2
                obtain ⟨_, _, _, k2, _⟩ := run_effects rest env s2
                rw [k2, g2]
                exact List.mem_append_left _ (List.mem_append_left _ hsub)
              · have hsub := ihf s1 hpf (by rw [hf2])
                rw [hf2] at hsub
                obtain ⟨_, _, _, k2, _⟩ := run_effects rest env s2
                rw [k2]
                exact List.mem_append_left _ hsub
              · exact ihr _ hpr hok
          | retd =>
              rw [run_tryFinally_bodyStop b f rest env s s1 s2 _ (by simp) hb hf2] at hok
              simp at hok
          | raised =>
              rw [run_tryFinally_bodyStop b f rest env s s1 s2 _ (by simp) hb hf2] at hok
              simp at hok
      | retd =>
          rw [run_tryFinally_finStop b f rest env s s1 s2 _ _ (by simp) hb hf2] at hok
          simp at hok
      | raised =>
          rw [run_tryFinally_finStop b f rest env s s1 s2 _ _ (by simp) hb hf2] at hok
          simp at hok

/-- On a normally-completing run, the guaranteed spine `mustActs` occurs
as a subsequence of the newly attempted calls. -/
theorem must_acts_sound (p : Prog) (env : Env) :
    ∀ s : St, (run p env s).2 = .ok →
      ∃ t, (run p env s).1.attempted.map Prod.fst =
          s.attempted.map Prod.fst ++ t ∧ List.Sublist (mustActs p) t := by
  induction p with
  | done => intro s _; exact ⟨[], by simp [run], by simp [mustActs]⟩
  | ret => intro s hok; simp [run] at hok
  | act a rest ih =>
      intro s hok
      by_cases hf : (fallible a && env.fails s.nf) = true
      · rw [run_act_fail a rest env s hf] at hok; simp at hok
      · rw [run_act_succ a rest env s (by simpa using hf)] at hok ⊢
        obtain ⟨t, h1, h2⟩ := ih (okStep s a) hok
        refine ⟨a :: t, ?_, ?_⟩
        · rw [h1]
          simp [okStep, List.append_assoc]
        · simp only [mustActs]
          exact List.Sublist.cons₂ a h2
  | branch c t e rest iht ihe ihr =>
      intro s hok
      rcases hq : (if env.branches s.nb
          then run t env { s with nb := s.nb + 1 }
          else run e env { s with nb := s.nb + 1 }) with ⟨s2, o⟩
      cases o with
      | ok =>
          rw [run_branch_ok c t e rest env s s2 hq] at hok ⊢
          obtain ⟨t2, h1, h2⟩ := ihr s2 hok
          have hpre : ∃ u, s2.attempted = s.attempted ++ u := by
            by_cases hbb : env.branches s.nb = true
            · rw [if_pos hbb] at hq
              obtain ⟨u, _, k1, _, _⟩ := run_effects t env { s with nb := s.nb + 1 }
              rw [hq] at k1
              exact ⟨u, k1⟩
            · rw [if_neg hbb] at hq
              obtain ⟨u, _, k1, _, _⟩ := run_effects e env { s with nb := s.nb + 1 }
              rw [hq] at k1
              exact ⟨u, k1⟩
          obtain ⟨u, hu⟩ := hpre
          refine ⟨u.map Prod.fst ++ t2, ?_, ?_⟩
          · rw [h1, hu, List.map_append, List.append_assoc]
          · simp only [mustActs]
            exact h2.trans (List.sublist_append_right _ _)
      | retd =>
          rw [run_branch_stop c t e rest env s s2 _ (by simp) hq] at hok
          simp at hok
      | raised =>
          rw [run_branch_stop c t e rest env s s2 _ (by simp) hq] at hok
          simp at hok
  | tryCatch b h rest ihb ihh ihr =>
      intro s hok
      rcases hb : run b env s with ⟨s1, o⟩
      cases o with
      | ok =>
          rw [run_tryCatch_ok b h rest env s s1 hb] at hok ⊢
          obtain ⟨t2, h1, h2⟩ := ihr s1 hok
          obtain ⟨u, _, k1, _, _⟩ := run_effects b env s
          rw [hb] at k1
          refine ⟨u.map Prod.fst ++ t2, ?_, ?_⟩
          · rw [h1, k1, List.map_append, List.append_assoc]
          · simp only [mustActs]
            exact h2.trans (List.sublist_append_right _ _)
      | retd =>
          rw [run_tryCatch_retd b h rest env s s1 hb] at hok
          simp at hok
      | raised =>
          rcases hh : run h env s1 with ⟨s2, o2⟩
          cases o2 with
          | ok =>
              rw [run_tryCatch_raised_ok b h rest env s s1 s2 hb hh] at hok ⊢
              obtain ⟨t2, h1, h2⟩ := ihr s2 hok
              obtain ⟨u1, _, k1, _, _⟩ := run_effects b env s
              rw [hb] at k1
              obtain ⟨u2, _, k2, _, _⟩ := run_effects h env s1
              rw [hh] at k2
              refine ⟨u1.map Prod.fst ++ (u2.map Prod.fst ++ t2), ?_, ?_⟩
              · rw [h1, k2, k1]
                simp [List.append_assoc]
              · simp only [mustActs]
                exact h2.trans ((List.sublist_append_right _ _).trans
                  (List.sublist_append_right _ _))
          | retd =>
              rw [run_tryCatch_raised_stop b h rest env s s1 s2 _ (by simp) hb hh] at hok
              simp at hok
          | raised =>
              rw [run_tryCatch_raised_stop b h rest env s s1 s2 _ (by simp) hb hh] at hok
              simp at hok
  | tryFinally b f rest ihb ihf ihr =>
      intro s hok
      rcases hb : run b env s with ⟨s1, o⟩
      rcases hf2 : run f env s1 with ⟨s2, o2⟩
      cases o2 with
      | ok =>
          cases o with
          | ok =>
              rw [run_tryFinally_ok b f rest env s s1 s2 hb hf2] at hok ⊢
              obtain ⟨t1, h1b, h2b⟩ := ihb s (by rw [hb])
              rw [hb] at h1b
              obtain ⟨t2, h1f, h2f⟩ := ihf s1 (by rw [hf2])
              rw [hf2] at h1f
              obtain ⟨t3, h1r, h2r⟩ := ihr s2 hok
              refine ⟨t1 ++ t2 ++ t3, ?_, ?_⟩
              · rw [h1r, h1f, h1b]
                simp [List.append_assoc]
              · simp only [mustActs]
                exact List.Sublist.append (List.Sublist.append h2b h2f) h2r
          | retd =>
              rw [run_tryFinally_bodyStop b f rest env s s1 s2 _ (by simp) hb hf2] at hok
              simp at hok
          | raised =>
              rw [run_tryFinally_bodyStop b f rest env s s1 s2 _ (by simp) hb hf2] at hok
              simp at hok
      | retd =>
          rw [run_tryFinally_finStop b f rest env s s1 s2 _ _ (by simp) hb hf2] at hok
          simp at hok
      | raised =>
          rw [run_tryFinally_finStop b f rest env s s1 s2 _ _ (by simp) hb hf2] at hok
          simp at hok

/-- Key abort property: if every screenshot of `q` in `p` sits at a tail
position, a run of `p` that ends in an uncaught raise cannot have written
`q`. -/
theorem tail_shot_sound (q : String) (p : Prog) (env : Env) :
    ∀ s : St, tailShot q p = true → q ∉ s.writes →
      (run p env s).2 = .raised → q ∉ (run p env s).1.writes := by
  induction p with
  | done => intro s _ _ hr; simp [run] at hr
  | ret => intro s _ _ hr; simp [run] at hr
  | act a rest ih =>
      intro s hp hw hr
      by_cases hsq : q ∈ shotOf a
      · have hcr : cannotRaise rest = true := by simpa [tailShot, hsq] using hp
        by_cases hf : (fallible a && env.fails s.nf) = true
        · rw [run_act_fail a rest env s hf]
          exact hw
        · rw [run_act_succ a rest env s (by simpa using hf)] at hr
          exact absurd hr (cannot_raise_sound rest env (okStep s a) hcr)
      · have hts : tailShot q rest = true := by simpa [tailShot, hsq] using hp
        by_cases hf : (fallible a && env.fails s.nf) = true
        · rw [run_act_fail a rest env s hf]
          exact hw
        · rw [run_act_succ a rest env s (by simpa using hf)] at hr ⊢
          refine ih (okStep s a) hts ?_ hr
          simp only [okStep]
          intro hx
          rcases List.mem_append.mp hx with hx | hx
          · exact hw hx
          · exact hsq hx
  | branch c t e rest iht ihe ihr =>
      intro s hp hw hr
      simp only [tailShot, Bool.and_eq_true] at hp
      obtain ⟨⟨hnt, hne⟩, htr⟩ := hp
      rcases hq : (if env.branches s.nb
          then run t env { s with nb := s.nb + 1 }
          else run e env { s with nb := s.nb + 1 }) with ⟨s2, o⟩
      have hw2 : q ∉ s2.writes := by
        by_cases hbb : env.branches s.nb = true
        · rw [if_pos hbb] at hq
          obtain ⟨_, w, _, k2, k3⟩ := run_effects t env { s with nb := s.nb + 1 }
          rw [hq] at k2
          rw [k2]
          intro hx
          rcases List.mem_append.mp hx with hx | hx
          · exact hw hx
          · have hq2 : q ∉ shotPaths t := by simpa [noShot] using hnt
            exact hq2 (k3 q hx)
        · rw [if_neg hbb] at hq
          obtain ⟨_, w, _, k2, k3⟩ := run_effects e env { s with nb := s.nb + 1 }
          rw [hq] at k2
          rw [k2]
          intro hx
          rcases List.mem_append.mp hx with hx | hx
          · exact hw hx
          · have hq2 : q ∉ shotPaths e := by simpa [noShot] using hne
            exact hq2 (k3 q hx)
      cases o with
      | ok =>
          rw [run_branch_ok c t e rest env s s2 hq] at hr ⊢
          exact ihr s2 htr hw2 hr
      | retd =>
          rw [run_branch_stop c t e rest env s s2 _ (by simp) hq] at hr
          simp at hr
      | raised =>
          rw [run_branch_stop c t e rest env s s2 _ (by simp) hq]
          exact hw2
  | tryCatch b h rest ihb ihh ihr =>
      intro s hp hw hr
      simp only [tailShot, Bool.and_eq_true] at hp
      obtain ⟨⟨hnb, hnh⟩, htr⟩ := hp
      rcases hb : run b env s with ⟨s1, o⟩
      have hw1 : q ∉ s1.writes := by
        obtain ⟨_, w, _, k2, k3⟩ := run_effects b env s
        rw [hb] at k2
        rw [k2]
        intro hx
        rcases List.mem_append.mp hx with hx | hx
        · exact hw hx
        · have hq2 : q ∉ shotPaths b := by simpa [noShot] using hnb
          exact hq2 (k3 q hx)
      cases o with
      | ok =>
          rw [run_tryCatch_ok b h rest env s s1 hb] at hr ⊢
          exact ihr s1 htr hw1 hr
      | retd =>
          rw [run_tryCatch_retd b h rest env s s1 hb] at hr
          simp at hr
      | raised =>
          rcases hh : run h env s1 with ⟨s2, o2⟩
          have hw2 : q ∉ s2.writes := by
            obtain ⟨_, w, _, k2, k3⟩ := run_effects h env s1
            rw [hh] at k2
            rw [k2]
            intro hx
            rcases List.mem_append.mp hx with hx | hx
            · exact hw1 hx
            · have hq2 : q ∉ shotPaths h := by simpa [noShot] using hnh
              exact hq2 (k3 q hx)
          cases o2 with
          | ok =>
              rw [run_tryCatch_raised_ok b h rest env s s1 s2 hb hh] at hr ⊢
              exact ihr s2 htr hw2 hr
          | retd =>
              rw [run_tryCatch_raised_stop b h rest env s s1 s2 _ (by simp) hb hh] at hr
              simp at hr
          | raised =>
              rw [run_tryCatch_raised_stop b h rest env s s1 s2 _ (by simp) hb hh]
              exact hw2
  | tryFinally b f rest ihb ihf ihr =>
      intro s hp hw hr
      simp only [tailShot, Bool.and_eq_true] at hp
      obtain ⟨⟨⟨⟨htb, hnf⟩, hcf⟩, hnr⟩, hcr⟩ := hp
      rcases hb : run b env s with ⟨s1, o⟩
      rcases hf2 : run f env s1 with ⟨s2, o2⟩
      have ho2 : o2 ≠ .raised := by
        have := cannot_raise_sound f env s1 hcf
        rw [hf2] at this
        simpa using this
      cases o2 with
      | raised => exact absurd rfl ho2
      | retd =>
          rw [run_tryFinally_finStop b f rest env s s1 s2 _ _ (by simp) hb hf2] at hr
          simp at hr
      | ok =>
          cases o with
          | ok =>
              rw [run_tryFinally_ok b f rest env s s1 s2 hb hf2] at hr
              exact absurd hr (cannot_raise_sound rest env s2 hcr)
          | retd =>
              rw [run_tryFinally_bodyStop b f rest env s s1 s2 _ (by simp) hb hf2] at hr
              simp at hr
          | raised =>
              rw [run_tryFinally_bodyStop b f rest env s s1 s2 _ (by simp) hb hf2]
              show q ∉ s2.writes
              have hw1 : q ∉ s1.writes := by
                have := ihb s htb hw (by rw [hb])
                rw [hb] at this
                exact this
              obtain ⟨_, w, _, k2, k3⟩ := run_effects f env s1
              rw [hf2] at k2
              rw [k2]
              intro hx
              rcases List.mem_append.mp hx with hx | hx
              · exact hw1 hx
              · have hq2 : q ∉ shotPaths f := by simpa [noShot] using hnf
                exact hq2 (k3 q hx)

/-- A try/finally whose finaliser is exactly browser.close() attempts the
close on every execution path. -/
theorem tryFinally_close (b rest : Prog) (env : Env) (s : St) :
    Act.closeBrowser ∈
      ((run (.tryFinally b (seq [.closeBrowser] .done) rest) env s).1.attempted.map
        Prod.fst) := by
  rcases hb : run b env s with ⟨s1, o⟩
  have hf2 : run (seq [Act.closeBrowser] Prog.done) env s1 =
      (okStep s1 .closeBrowser, .ok) := by
    rw [seq, run_act_succ Act.closeBrowser (seq [] Prog.done) env s1 (by rfl), seq]
    rfl
  have hmem : Act.closeBrowser ∈ (okStep s1 .closeBrowser).attempted.map Prod.fst := by
    simp [okStep]
  cases o with
  | ok =>
      rw [run_tryFinally_ok b _ rest env s s1 _ hb hf2]
      obtain ⟨t, _, h1, _, _⟩ := run_effects rest env (okStep s1 .closeBrowser)
      rw [h1, List.map_append]
      exact List.mem_append_left _ hmem
  | retd =>
      rw [run_tryFinally_bodyStop b _ rest env s s1 _ _ (by simp) hb hf2]
      exact hmem
  | raised =>
      rw [run_tryFinally_bodyStop b _ rest env s s1 _ _ (by simp) hb hf2]
      exact hmem

/-!
### Claim theorems
-/

/-- Claim C1, counterexample: in verify_unit_input, the execution path on
which the Grid Size input is not visible takes the early return, so the
script terminates (normally, without even an error) with no browser.close()
call ever attempted — the browser is not released by an explicit close on
that path, and the script has no guaranteed-cleanup block. -/
theorem C1_counterexample :
    (runS verify_unit_input envAllFalse).2 = Outcome.retd ∧
      Act.closeBrowser ∉ calls (runS verify_unit_input envAllFalse) := by
  decide

/-- Claim C1 (amended): the two scripts with guaranteed-cleanup blocks,
verify_debounce_setting (try/finally) and verify_jscad_preview (finally),
attempt browser.close() on every execution path; every script attempts
browser.close() on every path that completes normally; but on
uncaught-exception paths and on verify_unit_input's early-return path the
scripts without cleanup blocks never reach their close call. -/
theorem C1_amended :
    (∀ env : Env,
      Act.closeBrowser ∈ calls (runS verify_debounce_setting_main env) ∧
      Act.closeBrowser ∈ calls (runS verify_jscad_preview env)) ∧
    (∀ p ∈ allScripts, ∀ env : Env, (runS p env).2 = .ok →
      Act.closeBrowser ∈ calls (runS p env)) := by
  constructor
  · intro env
    constructor
    · have hred : runS verify_debounce_setting_main env =
          run (.tryFinally verify_debounce_setting_body
                (seq [.closeBrowser] .done) .done) env jscadStart := rfl
      rw [hred]
      exact tryFinally_close _ _ env _
    · have hred : runS verify_jscad_preview env =
          run (.tryFinally
                (.tryCatch verify_jscad_preview_body verify_jscad_preview_handler .done)
                (seq [.closeBrowser] .done) .done) env jscadStart := rfl
      rw [hred]
      exact tryFinally_close _ _ env _
  · have hall : allScripts.all okCloses = true := by decide
    intro p hp env hok
    exact ok_closes_sound p env st0 (List.all_eq_true.mp hall p hp) hok

/-- Claim C1, witness for the amended claim: the confetti script in the
all-success environment completes normally and its trace contains
browser.close(). -/
theorem C1_witness :
    verify_confetti ∈ allScripts ∧ (runS verify_confetti envAllTrue).2 = .ok ∧
      Act.closeBrowser ∈ calls (runS verify_confetti envAllTrue) :=
  ⟨by decide, by decide,
    C1_amended.2 verify_confetti (by decide) envAllTrue (by decide)⟩

/-- Claim C2, counterexample: the confetti script's screenshot call does
not request a full-page capture — no full_page option is passed, so the
automation library's viewport default applies — hence not every screenshot
the scripts capture is a full-page screenshot. -/
theorem C2_counterexample :
    ¬ ((shotCalls verify_confetti).all (fun c => c.2) = true) := by
  decide

/-- Claim C2 (amended): every screenshot any script captures is written to
a fixed, hard-coded, input-independent file path — on every environment the
paths a run writes are among the script's hard-coded screenshot paths —
but none of the screenshot calls requests a full-page capture (no
full_page option is passed, leaving the library's viewport default). -/
theorem C2_amended :
    ∀ p ∈ allScripts,
      (∀ env : Env, ∀ x ∈ (runS p env).1.writes, x ∈ shotPaths p) ∧
      (shotCalls p).all (fun c => c.2 = false) = true := by
  intro p hp
  constructor
  · intro env x hx
    obtain ⟨_, w, _, h2, h3⟩ := run_effects p env st0
    rw [runS] at hx
    rw [h2] at hx
    rcases List.mem_append.mp hx with hx | hx
    · simp [st0] at hx
    · exact h3 x hx
  · have hall : allScripts.all
        (fun q => (shotCalls q).all (fun c => c.2 = false)) = true := by decide
    exact List.all_eq_true.mp hall p hp

/-- Claim C2, witness for the amended claim: the visualization-mode script
in the all-success environment writes its first screenshot, and that path
is among the script's hard-coded screenshot paths. -/
theorem C2_witness :
    verify_viz_mode ∈ allScripts ∧
      "verification/viz_visual.png" ∈ (runS verify_viz_mode envAllTrue).1.writes ∧
      "verification/viz_visual.png" ∈ shotPaths verify_viz_mode :=
  ⟨by decide, by decide,
    (C2_amended verify_viz_mode (by decide)).1 envAllTrue _ (by decide)⟩

/-- Running the jscad script's except block from any state appends the
diagnostic print and the attempted error screenshot (and, when the error
screenshot succeeds, its confirmation print) to the trace. -/
theorem jscad_handler_run (env : Env) (s1 : St) :
    ∃ s2 o2, run verify_jscad_preview_handler env s1 = (s2, o2) ∧
      (s2.attempted.map Prod.fst =
          s1.attempted.map Prod.fst ++
            [Act.printExc "An error occurred: ",
             Act.screenshot "jules-scratch/verification/error.png" false] ∨
       s2.attempted.map Prod.fst =
          s1.attempted.map Prod.fst ++
            [Act.printExc "An error occurred: ",
             Act.screenshot "jules-scratch/verification/error.png" false,
             Act.printMsg "Error screenshot saved to jules-scratch/verification/error.png"]) := by
  have e1 : run verify_jscad_preview_handler env s1 =
      run (seq [Act.screenshot "jules-scratch/verification/error.png" false,
                Act.printMsg "Error screenshot saved to jules-scratch/verification/error.png"]
            .done) env (okStep s1 (Act.printExc "An error occurred: ")) := by
    rw [verify_jscad_preview_handler, seq,
      run_act_infall (Act.printExc "An error occurred: ") rfl]
  by_cases hsc : env.fails s1.nf = true
  · have hscA : env.fails (okStep s1 (Act.printExc "An error occurred: ")).nf = true := hsc
    have e2 : run verify_jscad_preview_handler env s1 =
        ({ okStep s1 (Act.printExc "An error occurred: ") with
            attempted := (okStep s1 (Act.printExc "An error occurred: ")).attempted ++
              [(Act.screenshot "jules-scratch/verification/error.png" false,
                (okStep s1 (Act.printExc "An error occurred: ")).clock)],
            nf := (okStep s1 (Act.printExc "An error occurred: ")).nf + 1 },
          .raised) := by
      rw [e1, seq,
        run_act_fails (Act.screenshot "jules-scratch/verification/error.png" false)
          rfl _ env _ hscA]
    exact ⟨_, _, e2, Or.inl (by simp [okStep])⟩
  · have hsc2 : env.fails s1.nf = false := by simpa using hsc
    have hscB : env.fails (okStep s1 (Act.printExc "An error occurred: ")).nf = false := hsc2
    have e2 : run verify_jscad_preview_handler env s1 =
        (okStep (okStep (okStep s1 (Act.printExc "An error occurred: "))
            (Act.screenshot "jules-scratch/verification/error.png" false))
          (Act.printMsg "Error screenshot saved to jules-scratch/verification/error.png"),
          .ok) := by
      rw [e1, seq,
        run_act_ok (Act.screenshot "jules-scratch/verification/error.png" false)
          rfl _ env _ hscB, seq,
        run_act_infall
          (Act.printMsg "Error screenshot saved to jules-scratch/verification/error.png")
          rfl, seq]
      rfl
    exact ⟨_, _, e2, Or.inr (by simp [okStep])⟩

/-- Claim C3 (confirmed): in verify_jscad_preview — the script wrapping its
interaction sequence in try/except — the browser close is attempted on
every execution path, and whenever the try body raises, the caught-error
path runs: the diagnostic print interpolating the exception, the attempted
best-effort error screenshot, and the browser close occur afterwards in
that order in the trace. -/
theorem C3_jscad_try_except :
    ∀ env : Env,
      Act.closeBrowser ∈ calls (runS verify_jscad_preview env) ∧
      ((run verify_jscad_preview_body env jscadStart).2 = .raised →
        List.Sublist
          [Act.printExc "An error occurred: ",
           Act.screenshot "jules-scratch/verification/error.png" false,
           Act.closeBrowser]
          (calls (runS verify_jscad_preview env))) := by
  intro env
  have hred : runS verify_jscad_preview env =
      run (.tryFinally
            (.tryCatch verify_jscad_preview_body verify_jscad_preview_handler .done)
            (seq [.closeBrowser] .done) .done) env jscadStart := rfl
  constructor
  · rw [hred]
    exact tryFinally_close _ _ env _
  · intro hbr
    rcases hb : run verify_jscad_preview_body env jscadStart with ⟨s1, o⟩
    rw [hb] at hbr
    cases o with
    | ok => simp at hbr
    | retd => simp at hbr
    | raised =>
        obtain ⟨s2, o2, hh, hcalls⟩ := jscad_handler_run env s1
        have htc : run (.tryCatch verify_jscad_preview_body
            verify_jscad_preview_handler .done) env jscadStart = (s2, o2) := by
          cases o2 with
          | ok =>
              exact (run_tryCatch_raised_ok _ _ _ env _ s1 s2 hb hh).trans rfl
          | retd =>
              exact run_tryCatch_raised_stop _ _ _ env _ s1 s2 _ (by simp) hb hh
          | raised =>
              exact run_tryCatch_raised_stop _ _ _ env _ s1 s2 _ (by simp) hb hh
        have hfin : run (seq [Act.closeBrowser] Prog.done) env s2 =
            (okStep s2 .closeBrowser, .ok) := by
          rw [seq, run_act_infall Act.closeBrowser rfl, seq]
          rfl
        have hfinal : (runS verify_jscad_preview env).1.attempted.map Prod.fst =
            s2.attempted.map Prod.fst ++ [Act.closeBrowser] := by
          rw [hred]
          cases o2 with
          | ok =>
              rw [run_tryFinally_ok _ _ _ env _ s2 _ htc hfin]
              simp [run, okStep]
          | retd =>
              rw [run_tryFinally_bodyStop _ _ _ env _ s2 _ _ (by simp) htc hfin]
              simp [okStep]
          | raised =>
              rw [run_tryFinally_bodyStop _ _ _ env _ s2 _ _ (by simp) htc hfin]
              simp [okStep]
        show List.Sublist _ ((runS verify_jscad_preview env).1.attempted.map Prod.fst)
        rw [hfinal]
        rcases hcalls with hc | hc
        · rw [hc, List.append_assoc]
          refine List.Sublist.trans ?_
            (List.sublist_append_right (s1.attempted.map Prod.fst) _)
          decide
        · rw [hc, List.append_assoc]
          refine List.Sublist.trans ?_
            (List.sublist_append_right (s1.attempted.map Prod.fst) _)
          decide

/-- Claim C3, witness: in the all-fail environment, the try body raises (at
its first navigation), and the script's trace still ends with the
diagnostic print, the attempted error screenshot, and the browser close. -/
theorem C3_witness :
    (run verify_jscad_preview_body envAllFail jscadStart).2 = .raised ∧
      List.Sublist
        [Act.printExc "An error occurred: ",
         Act.screenshot "jules-scratch/verification/error.png" false,
         Act.closeBrowser]
        (calls (runS verify_jscad_preview envAllFail)) :=
  ⟨by decide, (C3_jscad_try_except envAllFail).2 (by decide)⟩

/-- Claim C4 (confirmed): in the cited non-catching scripts, a raise
during the interaction sequence terminates the run with the raised outcome
and the screenshot located after the failing step is never written: a
raised run of verify_snap never writes verification/snap_grid.png, and a
raised run of verify_stl_conversion never writes its final screenshot
jules-scratch/verification/final_state.png (its earlier initial_state.png
screenshot may already have been written before the failure). -/
theorem C4_uncaught_no_screenshot :
    ∀ env : Env,
      ((runS verify_snap env).2 = .raised →
        "verification/snap_grid.png" ∉ (runS verify_snap env).1.writes) ∧
      ((runS verify_stl_conversion env).2 = .raised →
        "jules-scratch/verification/final_state.png" ∉
          (runS verify_stl_conversion env).1.writes) := by
  intro env
  constructor
  · intro hr
    exact tail_shot_sound _ verify_snap env st0 (by decide) (by decide) hr
  · intro hr
    exact tail_shot_sound _ verify_stl_conversion env st0 (by decide) (by decide) hr

/-- Claim C4, witness: in the all-fail environment both scripts raise at
their first navigation, and the tail screenshots are absent from the write
logs. -/
theorem C4_witness :
    (runS verify_snap envAllFail).2 = .raised ∧
      "verification/snap_grid.png" ∉ (runS verify_snap envAllFail).1.writes ∧
      (runS verify_stl_conversion envAllFail).2 = .raised ∧
      "jules-scratch/verification/final_state.png" ∉
        (runS verify_stl_conversion envAllFail).1.writes :=
  ⟨by decide, (C4_uncaught_no_screenshot envAllFail).1 (by decide), by decide,
    (C4_uncaught_no_screenshot envAllFail).2 (by decide)⟩

/-- Claim C5 (confirmed): the debounce script writes its screenshot only
on runs where the asserted interaction succeeded: whenever
jules-scratch/verification/verification.png is in the write log, the run
completed normally and the settings click, the visibility assertion, the
value-400 assertion, the fill with 1000, the value-1000 assertion and the
screenshot were all attempted, in source order; contrapositively, a run
that raises (in particular at a mismatched assertion) aborts before the
screenshot is taken. -/
theorem C5_debounce_asserts :
    ∀ env : Env,
      "jules-scratch/verification/verification.png" ∈
          (runS verify_debounce_setting_main env).1.writes →
        (runS verify_debounce_setting_main env).2 = .ok ∧
        List.Sublist
          [Act.click "get_by_text settings",
           Act.expectVisible debounceDelayInput 0,
           Act.expectValue debounceDelayInput "400",
           Act.fill debounceDelayInput "1000",
           Act.expectValue debounceDelayInput "1000",
           Act.screenshot "jules-scratch/verification/verification.png" false]
          (calls (runS verify_debounce_setting_main env)) := by
  intro env hP
  have hnr : (runS verify_debounce_setting_main env).2 ≠ .raised := by
    intro hr
    exact tail_shot_sound _ _ env st0 (by decide) (by decide) hr hP
  have hnd : (runS verify_debounce_setting_main env).2 ≠ .retd :=
    ret_free_sound _ env st0 (by decide)
  have hok : (runS verify_debounce_setting_main env).2 = .ok := by
    cases hoc : (runS verify_debounce_setting_main env).2 with
    | ok => rfl
    | retd => exact absurd hoc hnd
    | raised => exact absurd hoc hnr
  refine ⟨hok, ?_⟩
  obtain ⟨t, h1, h2⟩ := must_acts_sound verify_debounce_setting_main env st0 hok
  have h1x : calls (runS verify_debounce_setting_main env) = t := by
    simpa [runS, st0, calls] using h1
  have hsp : List.Sublist
      [Act.click "get_by_text settings",
       Act.expectVisible debounceDelayInput 0,
       Act.expectValue debounceDelayInput "400",
       Act.fill debounceDelayInput "1000",
       Act.expectValue debounceDelayInput "1000",
       Act.screenshot "jules-scratch/verification/verification.png" false]
      (mustActs verify_debounce_setting_main) := by decide
  rw [h1x]
  exact hsp.trans h2

/-- Claim C5, witness: in the all-success environment the debounce script
writes its screenshot, completes normally, and its trace contains the
asserted interaction in order. -/
theorem C5_witness :
    "jules-scratch/verification/verification.png" ∈
        (runS verify_debounce_setting_main envAllTrue).1.writes ∧
      (runS verify_debounce_setting_main envAllTrue).2 = .ok ∧
      List.Sublist
        [Act.click "get_by_text settings",
         Act.expectVisible debounceDelayInput 0,
         Act.expectValue debounceDelayInput "400",
         Act.fill debounceDelayInput "1000",
         Act.expectValue debounceDelayInput "1000",
         Act.screenshot "jules-scratch/verification/verification.png" false]
        (calls (runS verify_debounce_setting_main envAllTrue)) :=
  ⟨by decide, (C5_debounce_asserts envAllTrue (by decide)).1,
    (C5_debounce_asserts envAllTrue (by decide)).2⟩

/-- Claim C6 (confirmed): on any environment in which no automation call
fails, the confetti script completes normally, clicks the Generate button
exactly twice — at idealised clock times 0 ms and 1000 ms, i.e. the two
clicks are exactly 1000 ms apart, within one second of each other — takes
its screenshot and closes the browser. -/
theorem C6_confetti_double_click :
    ∀ env : Env, (∀ n, env.fails n = false) →
      (runS verify_confetti env).2 = .ok ∧
      genClicks (runS verify_confetti env) =
        [(Act.click "get_by_role button, name=Generate", 0),
         (Act.click "get_by_role button, name=Generate", 1000)] ∧
      1000 - 0 ≤ 1000 ∧
      (runS verify_confetti env).1.writes =
        ["jules-scratch/verification/verification.png"] ∧
      Act.closeBrowser ∈ calls (runS verify_confetti env) := by
  intro env h
  rw [runS, verify_confetti, run_seq_success _ _ env st0 h, run_done]
  decide

/-- Claim C6, witness: the conclusion instantiated in the concrete
all-success environment. -/
theorem C6_witness :
    (∀ n, envAllTrue.fails n = false) ∧
      (runS verify_confetti envAllTrue).2 = .ok ∧
      genClicks (runS verify_confetti envAllTrue) =
        [(Act.click "get_by_role button, name=Generate", 0),
         (Act.click "get_by_role button, name=Generate", 1000)] :=
  ⟨fun _ => rfl, (C6_confetti_double_click envAllTrue fun _ => rfl).1,
    (C6_confetti_double_click envAllTrue fun _ => rfl).2.1⟩

/-- Claim C7, counterexample: every page.goto URL in every script is free
of the query separator, so no script navigates to the application with a
query parameter (referencing an external repository or anything else). -/
theorem C7_counterexample :
    allScripts.all
      (fun p => (gotoUrls p).all (fun u => !(u.data.contains '?'))) = true := by
  decide

/-- Claim C7 (amended): verify_jscad_preview navigates to the application
root URL, which carries no query parameter, and after its fixed click
sequence (settings, the JSCAD Preview checkbox, back to the keyboard view,
Generate, the case.jscad download link) asserts that a canvas element is
visible: on every run of its try body that completes normally those calls
occur in that order. -/
theorem C7_amended :
    ("http://localhost:3000".data.contains '?') = false ∧
    ∀ env : Env, (run verify_jscad_preview_body env st0).2 = .ok →
      List.Sublist
        [Act.goto "http://localhost:3000",
         Act.click "locator button:has-text(settings)",
         Act.check "get_by_label JSCAD Preview (experimental)",
         Act.click "locator button:has-text(keyboard_alt)",
         Act.click "locator button:has-text(Generate)",
         Act.click "locator a:has-text(case.jscad)",
         Act.expectVisible "locator canvas" 15000]
        (calls (run verify_jscad_preview_body env st0)) := by
  constructor
  · decide
  · intro env hok
    obtain ⟨t, h1, h2⟩ := must_acts_sound verify_jscad_preview_body env st0 hok
    have h1x : calls (run verify_jscad_preview_body env st0) = t := by
      simpa [st0, calls] using h1
    have hsp : List.Sublist
        [Act.goto "http://localhost:3000",
         Act.click "locator button:has-text(settings)",
         Act.check "get_by_label JSCAD Preview (experimental)",
         Act.click "locator button:has-text(keyboard_alt)",
         Act.click "locator button:has-text(Generate)",
         Act.click "locator a:has-text(case.jscad)",
         Act.expectVisible "locator canvas" 15000]
        (mustActs verify_jscad_preview_body) := by decide
    rw [h1x]
    exact hsp.trans h2

/-- Claim C7, witness for the amended claim: the jscad try body in the
all-success environment completes normally and contains the click sequence
followed by the canvas-visibility assertion. -/
theorem C7_witness :
    (run verify_jscad_preview_body envAllTrue st0).2 = .ok ∧
      List.Sublist
        [Act.goto "http://localhost:3000",
         Act.click "locator button:has-text(settings)",
         Act.check "get_by_label JSCAD Preview (experimental)",
         Act.click "locator button:has-text(keyboard_alt)",
         Act.click "locator button:has-text(Generate)",
         Act.click "locator a:has-text(case.jscad)",
         Act.expectVisible "locator canvas" 15000]
        (calls (run verify_jscad_preview_body envAllTrue st0)) :=
  ⟨by decide, C7_amended.2 envAllTrue (by decide)⟩

/-- Claim C8 (confirmed; conversion modelled from the spec, since the web
application is not part of src/): as literally scripted, 1 U converts to
19.05 mm and 10 mm converts back to 0.525 U (10 / 19.05 rounded to three
decimals) — matching exactly the "(Expected ~19.05)" and
"(Expected ~0.525)" prints that verify_layout.py issues after selecting mm
with the initial 1 U value, filling 10, and selecting U again — and the
modelled unit control cycles U → u → mm → U, so three successive unit
changes restore the initial unit, matching the three Change-unit clicks of
verify_unit_input.py. -/
theorem C8_unit_conversion :
    uToMm 1 = 1905 / 100 ∧
    mmToU 10 = 525 / 1000 ∧
    (["U", "u", "mm"].all fun u => nextUnit (nextUnit (nextUnit u)) = u) = true ∧
    Act.printParts ["Value in mm: ", " (Expected ~19.05)"] ∈ actsOf verify_layout ∧
    Act.printParts ["Value in U: ", " (Expected ~0.525)"] ∈ actsOf verify_layout ∧
    (actsOf verify_unit_input).count (Act.click "get_by_label Change unit") = 3 := by
  refine ⟨?_, ?_, by decide, by decide, by decide, by decide⟩
  · norm_num [uToMm, mmPerU]
  · have hfloor : ⌊(10 / mmPerU * 1000 + 1 / 2 : ℚ)⌋ = 525 := by
      rw [Int.floor_eq_iff]
      norm_num [mmPerU]
    rw [mmToU, round3, hfloor]
    norm_num

/-- Claim C9 (confirmed): for every script and every environment, every
filesystem write a run performs is a screenshot at one of the script's
hard-coded paths, each of which names a PNG file under one of the two
verification directories; in particular the browser-storage seeding of
verify_viz_mode writes nothing to the filesystem, as its runs write only
its screenshot paths. -/
theorem C9_only_png_screenshots :
    ∀ p ∈ allScripts,
      (∀ env : Env, ∀ x ∈ (runS p env).1.writes, x ∈ shotPaths p) ∧
      (shotPaths p).all pngUnderVerification = true := by
  intro p hp
  constructor
  · intro env x hx
    obtain ⟨_, w, _, h2, h3⟩ := run_effects p env st0
    rw [runS] at hx
    rw [h2] at hx
    rcases List.mem_append.mp hx with hx | hx
    · simp [st0] at hx
    · exact h3 x hx
  · have hall : allScripts.all
        (fun q => (shotPaths q).all pngUnderVerification) = true := by decide
    exact List.all_eq_true.mp hall p hp

/-- Claim C9, witness: the visualization-mode script in the all-success
environment; its wireframe screenshot is written, lies among its hard-coded
paths, and those paths are PNGs under the verification directories. -/
theorem C9_witness :
    verify_viz_mode ∈ allScripts ∧
      "verification/viz_wireframe.png" ∈ (runS verify_viz_mode envAllTrue).1.writes ∧
      "verification/viz_wireframe.png" ∈ shotPaths verify_viz_mode ∧
      (shotPaths verify_viz_mode).all pngUnderVerification = true :=
  ⟨by decide, by decide,
    (C9_only_png_screenshots verify_viz_mode (by decide)).1 envAllTrue _ (by decide),
    (C9_only_png_screenshots verify_viz_mode (by decide)).2⟩

/-- Claim C10 (confirmed): the confetti script and the debounce script
hard-code the identical success-screenshot path
jules-scratch/verification/verification.png — it is the only screenshot
path of either script, every normally-completing run of either script
writes it, and under last-writer-wins filesystem semantics the run
executed second owns the artifact, overwriting whatever the other script
(or a previous run) left there. -/
theorem C10_shared_verification_png :
    shotPaths verify_confetti = ["jules-scratch/verification/verification.png"] ∧
    shotPaths verify_debounce_setting_main =
      ["jules-scratch/verification/verification.png"] ∧
    (∀ env : Env, (runS verify_confetti env).2 = .ok →
      "jules-scratch/verification/verification.png" ∈
        (runS verify_confetti env).1.writes) ∧
    (∀ env : Env, (runS verify_debounce_setting_main env).2 = .ok →
      "jules-scratch/verification/verification.png" ∈
        (runS verify_debounce_setting_main env).1.writes) ∧
    (∀ w1 w2 : List String,
      "jules-scratch/verification/verification.png" ∈ w2 →
        lastWriter [(0, w1), (1, w2)]
          "jules-scratch/verification/verification.png" = some 1) := by
  refine ⟨by decide, by decide, ?_, ?_, ?_⟩
  · intro env hok
    exact ok_writes_sound _ verify_confetti env st0 (by decide) hok
  · intro env hok
    exact ok_writes_sound _ verify_debounce_setting_main env st0 (by decide) hok
  · intro w1 w2 h2
    simp [lastWriter, h2]

/-- Claim C10, witness: both scripts run to completion in the all-success
environment, both write the shared path, and running the debounce script
second leaves it as the last writer of the shared artifact. -/
theorem C10_witness :
    (runS verify_confetti envAllTrue).2 = .ok ∧
      "jules-scratch/verification/verification.png" ∈
        (runS verify_confetti envAllTrue).1.writes ∧
      (runS verify_debounce_setting_main envAllTrue).2 = .ok ∧
      "jules-scratch/verification/verification.png" ∈
        (runS verify_debounce_setting_main envAllTrue).1.writes ∧
      lastWriter [(0, (runS verify_confetti envAllTrue).1.writes),
                  (1, (runS verify_debounce_setting_main envAllTrue).1.writes)]
        "jules-scratch/verification/verification.png" = some 1 :=
  ⟨by decide, C10_shared_verification_png.2.2.1 envAllTrue (by decide), by decide,
    C10_shared_verification_png.2.2.2.1 envAllTrue (by decide),
    C10_shared_verification_png.2.2.2.2 _ _
      (C10_shared_verification_png.2.2.2.1 envAllTrue (by decide))⟩

end ErgogenVerif
